import Mathlib

/-!
# MPD player control plane (`src/player.c`) and generic tag scanning (`src/tag/Generic.cxx`)

A shallow embedding of the control-thread operations of `player.c`, of one
iteration of the worker loop `player_task`, and of `ScanGenericTags`.

Conventions of the embedding.

* `PlayerControl` is the shared record `getPlayerData()->playerControl`.
* The two threads are sequentialised along the hand-shake of the source: the
  worker thread performs one iteration of the `player_task` loop each time the
  control thread executes `wakeup_player()` / `wakeup_player_nb()` inside one of
  its `do { ... } while (pc->flag)` loops, and is parked otherwise.
* The `do ... while` loops carry a fuel argument; `none` means that the loop
  did not finish within the fuel.
* Everything `player.c` calls but does not define is a field of `Externals`.
-/

namespace MPD

/-- A C string, as the list of characters before the terminating NUL. -/
abbrev CString := List Char

/-- A C `float` value, carried as its IEEE-754 binary32 bit pattern. -/
structure CFloat where
  bits : Nat
deriving DecidableEq, Repr

/-- The comparison `x < 0` on a binary32 bit pattern: the sign bit is set and
the value is neither a NaN nor a zero. -/
def CFloat.isNegative (x : CFloat) : Bool :=
  let sign := x.bits / 2 ^ 31 % 2
  let exponent := x.bits / 2 ^ 23 % 256
  let mantissa := x.bits % 2 ^ 23
  sign == 1 && !(exponent == 255 && mantissa != 0) && !(exponent == 0 && mantissa == 0)

/-- Modelled from the spec: the values of `pc->state` (`player.h` is not among the
sources); spec section 3 gives Stopped, Playing, Paused. -/
inductive PlayerState where
  | PLAYER_STATE_STOP
  | PLAYER_STATE_PAUSE
  | PLAYER_STATE_PLAY
deriving DecidableEq, Repr

/-- Modelled from the spec: the values of `pc->queueState` (`player.h` is not among
the sources); spec section 3 gives Blank, Full. -/
inductive QueueState where
  | PLAYER_QUEUE_BLANK
  | PLAYER_QUEUE_FULL
deriving DecidableEq, Repr

/-- Modelled from the spec: the values of `pc->queueLockState` (`player.h` is not
among the sources); spec section 3 gives Locked, Unlocked. -/
inductive QueueLockState where
  | PLAYER_QUEUE_UNLOCKED
  | PLAYER_QUEUE_LOCKED
deriving DecidableEq, Repr

/-- Modelled from the spec: the values of `pc->metadataState` (`player.h` is not
among the sources); spec section 3 gives Read, Write. -/
inductive MetadataState where
  | PLAYER_METADATA_STATE_READ
  | PLAYER_METADATA_STATE_WRITE
deriving DecidableEq, Repr

/-- Modelled from the spec: the values of `pc->error` (`player.h` is not among the
sources); spec section 3 gives None, FileNotFound, DecodeFailure,
AudioOpenFailure, SystemError, UnknownFileType. -/
inductive PlayerError where
  | PLAYER_ERROR_NOERROR
  | PLAYER_ERROR_FILENOTFOUND
  | PLAYER_ERROR_FILE
  | PLAYER_ERROR_AUDIO
  | PLAYER_ERROR_SYSTEM
  | PLAYER_ERROR_UNKTYPE
deriving DecidableEq, Repr

/-- The tag of a song (`tag.h` is not among the sources): `player.c` reads the
field `time` only; the rest of the tag is kept as uninterpreted items. -/
structure MpdTag where
  time : Int
  items : List (Nat × CString)
deriving DecidableEq, Repr

/-- A `MetadataChunk` (`metadataChunk.h` is not among the sources): `player.c`
only copies it as a block of memory. -/
structure MetadataChunk where
  bytes : List Nat
deriving DecidableEq, Repr

/-- A `Song` (`song.h` is not among the sources), with the two members that
`player.c` touches; `tag` is a nullable pointer. -/
structure Song where
  url : CString
  tag : Option MpdTag
deriving DecidableEq, Repr

/-- The shared control block `PlayerControl` (`player.h` is not among the
sources): the members that `player.c` reads or writes. -/
structure PlayerControl where
  play : Bool
  stop : Bool
  seek : Bool
  pause : Bool
  closeAudio : Bool
  lockQueue : Bool
  unlockQueue : Bool
  state : PlayerState
  queueState : QueueState
  queueLockState : QueueLockState
  metadataState : MetadataState
  error : PlayerError
  erroredUrl : CString
  utf8url : CString
  currentUrl : CString
  fileTime : Int
  fileMetadataChunk : MetadataChunk
  metadataChunk : MetadataChunk
  seekWhere : CFloat
  elapsedTime : CFloat
  totalTime : CFloat
  totalPlayTime : CFloat
  bitRate : Nat
  sampleRate : Nat
  bits : Int
  channels : Int
  crossFade : CFloat
  softwareVolume : Int
deriving DecidableEq, Repr

/-- What happens outside the control block, in the order it happens. -/
inductive Event where
  | decode
  | closeAudioDevice
  | wakeup_main_task
  | commandError (fd : Int) (msg : CString)
deriving DecidableEq, Repr

/-- The state of the program as far as `player.c` is concerned: the control
block, the function-local statics of `playerCurrentDecodeSong`, and the calls
made so far to collaborators. -/
structure World where
  pc : PlayerControl
  song : Option Song
  prev : Option MetadataChunk
  trace : List Event
deriving DecidableEq, Repr

/-- Everything `player.c` uses without defining it. -/
structure Externals where
  MPD_PATH_MAX : Nat
  get_song_url : Song → CString
  copyMpdTagToMetadataChunk : Option MpdTag → MetadataChunk → MetadataChunk
  metadataChunkToMpdTagDup : MetadataChunk → Option MpdTag
  decoder : PlayerControl → PlayerControl

/-- Modelled from the spec: `decode()` (`decode.c` is not among the sources).
Spec sections 3, 4.2 and 6: the Decoder clears `play`, writes the playback
status and the status fields, publishes metadata and latches errors; it sets or
clears no other command flag and does not write the queue fields or the
current-song snapshot.  The values it writes are those proposed by
`X.decoder`, which is arbitrary. -/
def decode (X : Externals) (pc : PlayerControl) : PlayerControl :=
  let r := X.decoder pc
  { pc with
    play := false
    state := r.state
    elapsedTime := r.elapsedTime
    totalTime := r.totalTime
    totalPlayTime := r.totalPlayTime
    bitRate := r.bitRate
    sampleRate := r.sampleRate
    bits := r.bits
    channels := r.channels
    crossFade := r.crossFade
    softwareVolume := r.softwareVolume
    metadataState := r.metadataState
    metadataChunk := r.metadataChunk
    currentUrl := r.currentUrl
    error := r.error
    erroredUrl := r.erroredUrl }

/-- One iteration of the `while (1)` loop of `player_task`.  The idle branch
(`player_sleep(); continue;`) leaves the world as it is. -/
def player_task (X : Externals) (w : World) : World :=
  let pc := w.pc
  if pc.play then
    { w with pc := decode X pc, trace := w.trace ++ [Event.decode, Event.wakeup_main_task] }
  else if pc.stop then
    { w with pc := { pc with stop := false }, trace := w.trace ++ [Event.wakeup_main_task] }
  else if pc.seek then
    { w with pc := { pc with seek := false }, trace := w.trace ++ [Event.wakeup_main_task] }
  else if pc.pause then
    { w with pc := { pc with pause := false }, trace := w.trace ++ [Event.wakeup_main_task] }
  else if pc.closeAudio then
    { w with pc := { pc with closeAudio := false },
             trace := w.trace ++ [Event.closeAudioDevice, Event.wakeup_main_task] }
  else if pc.lockQueue then
    { w with pc := { pc with queueLockState := QueueLockState.PLAYER_QUEUE_LOCKED,
                             lockQueue := false },
             trace := w.trace ++ [Event.wakeup_main_task] }
  else if pc.unlockQueue then
    { w with pc := { pc with queueLockState := QueueLockState.PLAYER_QUEUE_UNLOCKED,
                             unlockQueue := false },
             trace := w.trace ++ [Event.wakeup_main_task] }
  else
    w

/-- The control-side loop `do { wakeup_player(); } while (pc->flag)` (and its
`wakeup_player_nb` variant): each wakeup lets the worker run one iteration of
`player_task`, after which the flag is tested. -/
def wakeup_while (X : Externals) (flag : PlayerControl → Bool) : Nat → World → Option World
  | 0, _ => none
  | fuel + 1, w =>
    let w1 := player_task X w
    if flag w1.pc then wakeup_while X flag fuel w1 else some w1

/-- Body of `resetPlayerMetadata`. -/
def resetPlayerMetadata (pc : PlayerControl) : PlayerControl :=
  if pc.metadataState = MetadataState.PLAYER_METADATA_STATE_READ then
    { pc with metadataState := MetadataState.PLAYER_METADATA_STATE_WRITE }
  else pc

/-- Body of `set_current_song`.  `get_song_url(buf, song)` is taken to fill
`buf` with the string `X.get_song_url song` and to return `buf`. -/
def set_current_song (X : Externals) (song : Song) (pc : PlayerControl) : PlayerControl :=
  { pc with
    fileTime := (match song.tag with
      | some t => t.time
      | none => 0)
    fileMetadataChunk := X.copyMpdTagToMetadataChunk song.tag pc.fileMetadataChunk
    utf8url := X.get_song_url song }

/-- Body of `playerQueueLock`. -/
def playerQueueLock (X : Externals) (fuel : Nat) (w : World) : Option World :=
  if w.pc.queueLockState = QueueLockState.PLAYER_QUEUE_UNLOCKED then
    wakeup_while X (fun pc => pc.lockQueue) fuel { w with pc := { w.pc with lockQueue := true } }
  else some w

/-- Body of `playerQueueUnlock`. -/
def playerQueueUnlock (X : Externals) (fuel : Nat) (w : World) : Option World :=
  if w.pc.queueLockState = QueueLockState.PLAYER_QUEUE_LOCKED then
    wakeup_while X (fun pc => pc.unlockQueue) fuel { w with pc := { w.pc with unlockQueue := true } }
  else some w

/-- Body of `playerStop`; the result is the returned `int` and the world at return. -/
def playerStop (X : Externals) (fuel : Nat) (_fd : Int) (w : World) : Option (Int × World) :=
  let stopped :=
    if w.pc.state ≠ PlayerState.PLAYER_STATE_STOP then
      wakeup_while X (fun pc => pc.stop) fuel { w with pc := { w.pc with stop := true } }
    else some w
  match stopped with
  | none => none
  | some w1 =>
    let w2 := { w1 with pc := { w1.pc with queueState := QueueState.PLAYER_QUEUE_BLANK } }
    match playerQueueUnlock X fuel w2 with
    | none => none
    | some w3 => some (0, w3)

/-- Body of `playerPlay`. -/
def playerPlay (X : Externals) (fuel : Nat) (fd : Int) (song : Song) (w : World) :
    Option (Int × World) :=
  match playerStop X fuel fd w with
  | none => none
  | some (r, w1) =>
    if r < 0 then some (-1, w1)
    else
      let pc1 := set_current_song X song w1.pc
      let pc2 := resetPlayerMetadata pc1
      let pc3 := { pc2 with play := true }
      match wakeup_while X (fun pc => pc.play) fuel { w1 with pc := pc3 } with
      | none => none
      | some w2 => some (0, w2)

/-- Body of `playerPause`. -/
def playerPause (X : Externals) (fuel : Nat) (_fd : Int) (w : World) : Option (Int × World) :=
  let paused :=
    if w.pc.state ≠ PlayerState.PLAYER_STATE_STOP then
      wakeup_while X (fun pc => pc.pause) fuel { w with pc := { w.pc with pause := true } }
    else some w
  match paused with
  | none => none
  | some w1 => some (0, w1)

/-- Body of `playerSetPause`; `pause_flag` is a C `int` used as a truth value. -/
def playerSetPause (X : Externals) (fuel : Nat) (fd : Int) (pause_flag : Int) (w : World) :
    Option (Int × World) :=
  let done :=
    match w.pc.state with
    | PlayerState.PLAYER_STATE_PLAY =>
      if pause_flag ≠ 0 then (playerPause X fuel fd w).map Prod.snd else some w
    | PlayerState.PLAYER_STATE_PAUSE =>
      if pause_flag = 0 then (playerPause X fuel fd w).map Prod.snd else some w
    | PlayerState.PLAYER_STATE_STOP => some w
  match done with
  | none => none
  | some w1 => some (0, w1)

/-- Body of `getPlayerState`. -/
def getPlayerState (w : World) : PlayerState := w.pc.state

/-- Body of `clearPlayerError`; the constant `0` it stores is `PLAYER_ERROR_NOERROR`. -/
def clearPlayerError (w : World) : World :=
  { w with pc := { w.pc with error := PlayerError.PLAYER_ERROR_NOERROR } }

/-- Body of `getPlayerError`. -/
def getPlayerError (w : World) : PlayerError := w.pc.error

/-- What `snprintf(buf, size, ...)` leaves in `buf` when the formatted text is
`s`: at most `size - 1` characters of it. -/
def snprintf (size : Nat) (s : CString) : CString := s.take (size - 1)

/-- Body of `getPlayerErrorStr`: `none` is the `NULL` result, `some s` a pointer
to the buffer holding `s`. -/
def getPlayerErrorStr (X : Externals) (w : World) : Option CString :=
  let errorlen := X.MPD_PATH_MAX + 1024
  let pc := w.pc
  let error : CString :=
    match pc.error with
    | PlayerError.PLAYER_ERROR_FILENOTFOUND =>
      snprintf errorlen
        ("file \"".toList ++ pc.erroredUrl ++ "\" does not exist or is inaccessible".toList)
    | PlayerError.PLAYER_ERROR_FILE =>
      snprintf errorlen ("problems decoding \"".toList ++ pc.erroredUrl ++ "\"".toList)
    | PlayerError.PLAYER_ERROR_AUDIO =>
      snprintf errorlen "problems opening audio device".toList
    | PlayerError.PLAYER_ERROR_SYSTEM =>
      snprintf errorlen "system error occured".toList
    | PlayerError.PLAYER_ERROR_UNKTYPE =>
      snprintf errorlen
        ("file type  of \"".toList ++ pc.erroredUrl ++ "\" is unknown".toList)
    | PlayerError.PLAYER_ERROR_NOERROR => []
  if error.length ≠ 0 then some error else none

/-- Body of `playerCloseAudio`. -/
def playerCloseAudio (X : Externals) (fuel : Nat) (w : World) : Option World :=
  match playerStop X fuel 2 w with
  | none => none
  | some (r, w1) =>
    if r < 0 then some w1
    else
      wakeup_while X (fun pc => pc.closeAudio) fuel
        { w1 with pc := { w1.pc with closeAudio := true } }

/-- Body of `playerWait`. -/
def playerWait (X : Externals) (fuel : Nat) (fd : Int) (w : World) : Option (Int × World) :=
  match playerStop X fuel fd w with
  | none => none
  | some (r, w1) =>
    if r < 0 then some (-1, w1)
    else
      match playerCloseAudio X fuel w1 with
      | none => none
      | some w2 => some (0, w2)

/-- Body of `queueSong`. -/
def queueSong (X : Externals) (song : Song) (w : World) : Int × World :=
  if w.pc.queueState = QueueState.PLAYER_QUEUE_BLANK then
    (0, { w with pc := { set_current_song X song w.pc with
                          queueState := QueueState.PLAYER_QUEUE_FULL } })
  else (-1, w)

/-- Body of `getPlayerQueueState`. -/
def getPlayerQueueState (w : World) : QueueState := w.pc.queueState

/-- Body of `setQueueState`. -/
def setQueueState (queueState : QueueState) (w : World) : World :=
  { w with pc := { w.pc with queueState := queueState } }

/-- Body of `playerSeek`.  `strcmp(a, b) != 0` is inequality of the two strings. -/
def playerSeek (X : Externals) (fuel : Nat) (fd : Int) (song : Song) (seek_time : CFloat)
    (w : World) : Option (Int × World) :=
  if w.pc.state = PlayerState.PLAYER_STATE_STOP then
    some (-1, { w with trace :=
      w.trace ++ [Event.commandError fd "player not currently playing".toList] })
  else
    let pc1 :=
      if w.pc.utf8url ≠ X.get_song_url song then set_current_song X song w.pc else w.pc
    if pc1.error = PlayerError.PLAYER_ERROR_NOERROR then
      let pc2 := resetPlayerMetadata pc1
      let pc3 := { pc2 with seekWhere := seek_time }
      let pc4 := { pc3 with seek := true }
      match wakeup_while X (fun pc => pc.seek) fuel { w with pc := pc4 } with
      | none => none
      | some w1 => some (0, w1)
    else some (0, { w with pc := pc1 })

/-- Body of `setPlayerCrossFade`. -/
def setPlayerCrossFade (crossFadeInSeconds : CFloat) (w : World) : World :=
  let crossFadeInSeconds :=
    if crossFadeInSeconds.isNegative then { bits := 0 } else crossFadeInSeconds
  { w with pc := { w.pc with crossFade := crossFadeInSeconds } }

/-- Body of `setPlayerSoftwareVolume`. -/
def setPlayerSoftwareVolume (volume : Int) (w : World) : World :=
  let volume := if volume > 1000 then 1000 else (if volume < 0 then 0 else volume)
  { w with pc := { w.pc with softwareVolume := volume } }

/-- Body of `playerCurrentDecodeSong`: the returned pointer (`none` is `NULL`)
and the world at return.  `prev` receives a copy of `pc->metadataChunk`, the
song is built from `pc->currentUrl` and from the tag read back out of `prev`. -/
def playerCurrentDecodeSong (X : Externals) (w : World) : Option Song × World :=
  if w.pc.metadataState = MetadataState.PLAYER_METADATA_STATE_READ then
    let prev := w.pc.metadataChunk
    let song : Song := { url := w.pc.currentUrl, tag := X.metadataChunkToMpdTagDup prev }
    (some song,
      { w with prev := some prev, song := some song, pc := resetPlayerMetadata w.pc })
  else (none, w)

/-- Everything `Generic.cxx` uses without defining it, over a type `σ` of input
stream states, `π` of paths, `η` of tag handlers and `γ` of handler contexts.
Each scanner returns whether it found tags, and what it left behind. -/
structure TagScanners (σ π η γ : Type) where
  tag_ape_scan2 : σ → η → γ → Bool × σ × γ
  Rewind : σ → Bool × σ
  tag_id3_scan : σ → η → γ → Bool × σ × γ
  tag_ape_scan2_path : π → η → γ → Bool × γ
  tag_id3_scan_path : π → η → γ → Bool × γ

/-- Body of `ScanGenericTags(InputStream &, const TagHandler &, void *)`. -/
def ScanGenericTags {σ π η γ : Type} (T : TagScanners σ π η γ) (is : σ) (handler : η)
    (ctx : γ) : Bool × σ × γ :=
  let a := T.tag_ape_scan2 is handler ctx
  if a.1 then (true, a.2.1, a.2.2)
  else
    let r := T.Rewind a.2.1
    if !r.1 then (false, r.2, a.2.2)
    else T.tag_id3_scan r.2 handler a.2.2

/-- Body of `ScanGenericTags(Path, const TagHandler &, void *)`; `||` evaluates
its right operand only when the left one is false. -/
def ScanGenericTags_path {σ π η γ : Type} (T : TagScanners σ π η γ) (path : π) (handler : η)
    (ctx : γ) : Bool × γ :=
  let a := T.tag_ape_scan2_path path handler ctx
  if a.1 then (true, a.2)
  else T.tag_id3_scan_path path handler a.2

/-- The number of command flags that are set. -/
def pending (pc : PlayerControl) : Nat :=
  pc.play.toNat + pc.stop.toNat + pc.seek.toNat + pc.pause.toNat + pc.closeAudio.toNat
    + pc.lockQueue.toNat + pc.unlockQueue.toNat

/-- Sample collaborators for evaluating the definitions on concrete inputs. -/
def sampleExternals : Externals where
  MPD_PATH_MAX := 255
  get_song_url := fun song => song.url
  copyMpdTagToMetadataChunk := fun tag _ =>
    match tag with
    | some t => { bytes := [t.time.toNat] }
    | none => { bytes := [] }
  metadataChunkToMpdTagDup := fun chunk =>
    match chunk.bytes with
    | [] => none
    | b :: _ => some { time := b, items := [] }
  decoder := fun pc => { pc with state := PlayerState.PLAYER_STATE_PLAY }

/-- A control block as at start-up: nothing pending, stopped, queue blank and
unlocked, no error. -/
def idleControl : PlayerControl where
  play := false
  stop := false
  seek := false
  pause := false
  closeAudio := false
  lockQueue := false
  unlockQueue := false
  state := PlayerState.PLAYER_STATE_STOP
  queueState := QueueState.PLAYER_QUEUE_BLANK
  queueLockState := QueueLockState.PLAYER_QUEUE_UNLOCKED
  metadataState := MetadataState.PLAYER_METADATA_STATE_WRITE
  error := PlayerError.PLAYER_ERROR_NOERROR
  erroredUrl := []
  utf8url := []
  currentUrl := []
  fileTime := 0
  fileMetadataChunk := { bytes := [] }
  metadataChunk := { bytes := [] }
  seekWhere := { bits := 0 }
  elapsedTime := { bits := 0 }
  totalTime := { bits := 0 }
  totalPlayTime := { bits := 0 }
  bitRate := 0
  sampleRate := 0
  bits := 0
  channels := 0
  crossFade := { bits := 0 }
  softwareVolume := 1000

/-- A world around a control block: no statics allocated, nothing called yet. -/
def worldOf (pc : PlayerControl) : World where
  pc := pc
  song := none
  prev := none
  trace := []

/-- A control block whose playback status is Playing while the worker is at the
top of its loop with nothing pending. -/
def playingControl : PlayerControl :=
  { idleControl with state := PlayerState.PLAYER_STATE_PLAY }

/-- A song with a tag, for evaluating the definitions. -/
def songA : Song where
  url := "a.ogg".toList
  tag := some { time := 30, items := [] }

/-- A song without a tag, for evaluating the definitions. -/
def songB : Song where
  url := "b.ogg".toList
  tag := none

/-- The seven command flags in the order in which `player_task` tests them. -/
def flags (pc : PlayerControl) : List Bool :=
  [pc.play, pc.stop, pc.seek, pc.pause, pc.closeAudio, pc.lockQueue, pc.unlockQueue]

/-- Collaborators whose decoder publishes a metadata snapshot while it runs. -/
def publishingExternals : Externals :=
  { sampleExternals with
    decoder := fun pc => { pc with state := PlayerState.PLAYER_STATE_PLAY,
                                   metadataState := MetadataState.PLAYER_METADATA_STATE_READ } }

/-- Tag scanners over a stream that cannot be rewound and that carries ID3 tags
but no APE tag: a stream state is the read position, a handler context the
number of tags handed to the handler. -/
def unseekableScanners : TagScanners Nat Unit Unit Nat where
  tag_ape_scan2 := fun pos _ ctx => (false, pos + 32, ctx)
  Rewind := fun pos => (false, pos)
  tag_id3_scan := fun pos _ ctx => (true, pos + 10, ctx + 1)
  tag_ape_scan2_path := fun _ _ ctx => (false, ctx)
  tag_id3_scan_path := fun _ _ ctx => (true, ctx + 1)

/-- Tag scanners over a stream that can be rewound and that carries ID3 tags but
no APE tag. -/
def seekableScanners : TagScanners Nat Unit Unit Nat :=
  { unseekableScanners with Rewind := fun _ => (true, 0) }

/-- The fields that no iteration of `player_task` writes, compared between two
worlds: queue slot, current-song snapshot, seek target, and the statics of
`playerCurrentDecodeSong`. -/
def Kept (a b : World) : Prop :=
  b.pc.queueState = a.pc.queueState ∧ b.pc.utf8url = a.pc.utf8url
    ∧ b.pc.fileTime = a.pc.fileTime ∧ b.pc.fileMetadataChunk = a.pc.fileMetadataChunk
    ∧ b.pc.seekWhere = a.pc.seekWhere ∧ b.song = a.song ∧ b.prev = a.prev

instance (a b : World) : Decidable (Kept a b) := by
  unfold Kept
  infer_instance

/-- The fields that `player_task` writes through `decode()` only, compared between
two worlds, the first of which has `play` clear. -/
def Quiet (a b : World) : Prop :=
  a.pc.play = false →
    b.pc.play = false ∧ b.pc.state = a.pc.state ∧ b.pc.metadataState = a.pc.metadataState
      ∧ b.pc.error = a.pc.error ∧ b.pc.erroredUrl = a.pc.erroredUrl
      ∧ b.pc.currentUrl = a.pc.currentUrl ∧ b.pc.metadataChunk = a.pc.metadataChunk

instance (a b : World) : Decidable (Quiet a b) := by
  unfold Quiet
  infer_instance

/-- A decoder that writes neither the playback status nor the error slot: with
such a decoder, whatever writes `state` or `error` is control-thread code. -/
def Inert (X : Externals) : Prop :=
  ∀ pc, (X.decoder pc).state = pc.state ∧ (X.decoder pc).error = pc.error

/-- Collaborators whose decoder writes nothing. -/
def inertExternals : Externals :=
  { sampleExternals with decoder := fun pc => pc }

/-- The number of calls of `closeAudioDevice()` made so far. -/
def closeCount (w : World) : Nat := w.trace.count Event.closeAudioDevice

/-- What iterations of `player_task` keep between two worlds, besides `Kept` and
`Quiet`: no command flag gets set, `state` and `error` stay under an inert
decoder, the trace only grows, and while `closeAudio` is clear the audio device
is not closed. -/
def Worked (X : Externals) (a b : World) : Prop :=
  Kept a b ∧ Quiet a b ∧ pending b.pc ≤ pending a.pc
    ∧ (Inert X → b.pc.state = a.pc.state ∧ b.pc.error = a.pc.error)
    ∧ a.trace.length ≤ b.trace.length
    ∧ (a.pc.closeAudio = false → b.pc.closeAudio = false ∧ closeCount b = closeCount a)

/-- All seven command flags are clear. -/
def allClear (pc : PlayerControl) : Bool :=
  !pc.play && !pc.stop && !pc.seek && !pc.pause && !pc.closeAudio && !pc.lockQueue
    && !pc.unlockQueue

/-- The worlds a run of the program can be in between two calls of the control
thread: at start-up no command flag is set and the player is Stopped, and each
operation of `player.c`, whenever it returns, leaves such a world again. -/
inductive Reach (X : Externals) : World → Prop where
  | start (w : World) :
      allClear w.pc = true → w.pc.state = PlayerState.PLAYER_STATE_STOP → Reach X w
  | play {w w1 : World} (fuel : Nat) (fd : Int) (song : Song) (r : Int) :
      Reach X w → playerPlay X fuel fd song w = some (r, w1) → Reach X w1
  | stop {w w1 : World} (fuel : Nat) (fd : Int) (r : Int) :
      Reach X w → playerStop X fuel fd w = some (r, w1) → Reach X w1
  | pause {w w1 : World} (fuel : Nat) (fd : Int) (r : Int) :
      Reach X w → playerPause X fuel fd w = some (r, w1) → Reach X w1
  | setPause {w w1 : World} (fuel : Nat) (fd : Int) (pause_flag : Int) (r : Int) :
      Reach X w → playerSetPause X fuel fd pause_flag w = some (r, w1) → Reach X w1
  | seek {w w1 : World} (fuel : Nat) (fd : Int) (song : Song) (seek_time : CFloat) (r : Int) :
      Reach X w → playerSeek X fuel fd song seek_time w = some (r, w1) → Reach X w1
  | queue {w : World} (song : Song) :
      Reach X w → Reach X (queueSong X song w).2
  | lock {w w1 : World} (fuel : Nat) :
      Reach X w → playerQueueLock X fuel w = some w1 → Reach X w1
  | unlock {w w1 : World} (fuel : Nat) :
      Reach X w → playerQueueUnlock X fuel w = some w1 → Reach X w1
  | closeAudio {w w1 : World} (fuel : Nat) :
      Reach X w → playerCloseAudio X fuel w = some w1 → Reach X w1
  | wait {w w1 : World} (fuel : Nat) (fd : Int) (r : Int) :
      Reach X w → playerWait X fuel fd w = some (r, w1) → Reach X w1
  | clearError {w : World} :
      Reach X w → Reach X (clearPlayerError w)
  | setQueue {w : World} (queueState : QueueState) :
      Reach X w → Reach X (setQueueState queueState w)
  | setCrossFade {w : World} (crossFadeInSeconds : CFloat) :
      Reach X w → Reach X (setPlayerCrossFade crossFadeInSeconds w)
  | setVolume {w : World} (volume : Int) :
      Reach X w → Reach X (setPlayerSoftwareVolume volume w)
  | currentSong {w : World} :
      Reach X w → Reach X (playerCurrentDecodeSong X w).2

/-- The world in which `playerPlay` of a song returns when called at start-up,
with a decoder that leaves the player Playing. -/
def afterPlay : World :=
  match playerPlay sampleExternals 7 2 songA (worldOf idleControl) with
  | some (_, w) => w
  | none => worldOf idleControl

theorem pending_le (pc : PlayerControl) : pending pc ≤ 7 := by
  unfold pending
  have h : ∀ b : Bool, b.toNat ≤ 1 := fun b => by cases b <;> simp
  have h1 := h pc.play
  have h2 := h pc.stop
  have h3 := h pc.seek
  have h4 := h pc.pause
  have h5 := h pc.closeAudio
  have h6 := h pc.lockQueue
  have h7 := h pc.unlockQueue
  omega

theorem pending_player_task (X : Externals) (w : World) (h : 0 < pending w.pc) :
    pending (player_task X w).pc + 1 = pending w.pc := by
  unfold player_task
  simp only []
  split_ifs with h1 h2 h3 h4 h5 h6 h7
  · simp [pending, decode, h1]; omega
  · simp at h1; simp [pending, h1, h2]; omega
  · simp at h1 h2; simp [pending, h1, h2, h3]; omega
  · simp at h1 h2 h3; simp [pending, h1, h2, h3, h4]; omega
  · simp at h1 h2 h3 h4; simp [pending, h1, h2, h3, h4, h5]; omega
  · simp at h1 h2 h3 h4 h5; simp [pending, h1, h2, h3, h4, h5, h6]; omega
  · simp at h1 h2 h3 h4 h5 h6; simp [pending, h1, h2, h3, h4, h5, h6, h7]
  · simp at h1 h2 h3 h4 h5 h6 h7; simp [pending, h1, h2, h3, h4, h5, h6, h7] at h

theorem wakeup_while_terminates (X : Externals) (flag : PlayerControl → Bool)
    (hflag : ∀ pc, flag pc = true → 0 < pending pc) :
    ∀ (n : Nat) (w : World), flag w.pc = true → pending w.pc ≤ n →
      ∃ w1, wakeup_while X flag n w = some w1 := by
  intro n
  induction n with
  | zero =>
    intro w hw hn
    have := hflag _ hw
    omega
  | succ n ih =>
    intro w hw hn
    have hp := pending_player_task X w (hflag _ hw)
    simp only [wakeup_while]
    by_cases hf : flag (player_task X w).pc = true
    · simp only [hf, if_true]
      exact ih _ hf (by omega)
    · simp [hf]

theorem wakeup_while_last (X : Externals) (flag : PlayerControl → Bool) :
    ∀ (n : Nat) (w w1 : World), flag w.pc = true → wakeup_while X flag n w = some w1 →
      ∃ w0, flag w0.pc = true ∧ w1 = player_task X w0 ∧ flag w1.pc = false := by
  intro n
  induction n with
  | zero => intro w w1 _ h; simp [wakeup_while] at h
  | succ n ih =>
    intro w w1 hw h
    simp only [wakeup_while] at h
    by_cases hf : flag (player_task X w).pc = true
    · simp only [hf, if_true] at h
      exact ih _ _ hf h
    · simp only [hf] at h
      simp at h
      subst h
      exact ⟨w, hw, rfl, by simpa using hf⟩

theorem kept_trans {a b c : World} (h1 : Kept a b) (h2 : Kept b c) : Kept a c := by
  obtain ⟨a1, a2, a3, a4, a5, a6, a7⟩ := h1
  obtain ⟨b1, b2, b3, b4, b5, b6, b7⟩ := h2
  exact ⟨b1.trans a1, b2.trans a2, b3.trans a3, b4.trans a4, b5.trans a5, b6.trans a6,
    b7.trans a7⟩

theorem quiet_trans {a b c : World} (h1 : Quiet a b) (h2 : Quiet b c) : Quiet a c := by
  intro ha
  obtain ⟨a0, a1, a2, a3, a4, a5, a6⟩ := h1 ha
  obtain ⟨b0, b1, b2, b3, b4, b5, b6⟩ := h2 a0
  exact ⟨b0, b1.trans a1, b2.trans a2, b3.trans a3, b4.trans a4, b5.trans a5, b6.trans a6⟩

/-- No iteration of the worker loop writes the queue slot, the current-song
snapshot, the seek target or the statics. -/
theorem player_task_kept (X : Externals) (w : World) : Kept w (player_task X w) := by
  unfold Kept player_task
  simp only []
  split_ifs with h1 h2 h3 h4 h5 h6 h7 <;> simp_all [decode]

/-- While `play` is clear the worker loop writes nothing but command flags and
the queue lock. -/
theorem player_task_quiet (X : Externals) (w : World) : Quiet w (player_task X w) := by
  unfold Quiet player_task
  intro h
  simp only []
  split_ifs with h1 h2 h3 h4 h5 h6 h7 <;> simp_all

/-- An iteration that clears `unlockQueue` is the one that unlocks the queue. -/
theorem player_task_unlock (X : Externals) (w : World) (h : w.pc.unlockQueue = true)
    (h1 : (player_task X w).pc.unlockQueue = false) :
    (player_task X w).pc.queueLockState = QueueLockState.PLAYER_QUEUE_UNLOCKED := by
  revert h1
  unfold player_task
  simp only []
  split_ifs with h1 h2 h3 h4 h5 h6 <;> simp_all [decode]

/-- A loop `do { wakeup_player(); } while (pc->flag)` entered with the flag set
ends within seven wakeups, on the iteration that clears the flag. -/
theorem loop_total (X : Externals) (flag : PlayerControl → Bool)
    (hflag : ∀ pc, flag pc = true → 0 < pending pc) (k : Nat) (w : World)
    (h : flag w.pc = true) :
    ∃ w1, wakeup_while X flag (k + 7) w = some w1 ∧ flag w1.pc = false
      ∧ (∃ w0, flag w0.pc = true ∧ w1 = player_task X w0 ∧ Kept w w0 ∧ Quiet w w0)
      ∧ Kept w w1 ∧ Quiet w w1 := by
  obtain ⟨w1, hw1⟩ := wakeup_while_terminates X flag hflag (k + 7) w h
    (by have := pending_le w.pc; omega)
  have hk : ∀ n v v1, Kept w v ∧ Quiet w v → flag v.pc = true →
      wakeup_while X flag n v = some v1 →
      ∃ w0, flag w0.pc = true ∧ v1 = player_task X w0 ∧ Kept w w0 ∧ Quiet w w0 := by
    intro n
    induction n with
    | zero => intro v v1 _ _ hv; simp [wakeup_while] at hv
    | succ n ih =>
      intro v v1 hkq hfv hv
      simp only [wakeup_while] at hv
      by_cases hf : flag (player_task X v).pc = true
      · rw [if_pos hf] at hv
        exact ih _ _ ⟨kept_trans hkq.1 (player_task_kept X v), quiet_trans hkq.2 (player_task_quiet X v)⟩
          hf hv
      · rw [if_neg hf] at hv
        cases hv
        exact ⟨v, hfv, rfl, hkq.1, hkq.2⟩
  obtain ⟨w0, h0, he, hk0, hq0⟩ := hk _ _ _
    ⟨⟨rfl, rfl, rfl, rfl, rfl, rfl, rfl⟩, fun hp => ⟨hp, rfl, rfl, rfl, rfl, rfl, rfl⟩⟩ h hw1
  obtain ⟨_, _, _, hf⟩ := wakeup_while_last X flag _ _ _ h hw1
  refine ⟨w1, hw1, hf, ⟨w0, h0, he, hk0, hq0⟩, ?_, ?_⟩
  · rw [he]; exact kept_trans hk0 (player_task_kept X w0)
  · rw [he]; exact quiet_trans hq0 (player_task_quiet X w0)

/-! ## Stop -/

/-- From every control block `playerQueueUnlock` returns, with the queue
unlocked. -/
theorem playerQueueUnlock_total (X : Externals) (k : Nat) (w : World) :
    ∃ w1, playerQueueUnlock X (k + 7) w = some w1
      ∧ w1.pc.queueLockState = QueueLockState.PLAYER_QUEUE_UNLOCKED
      ∧ Kept w w1 ∧ Quiet w w1 := by
  unfold playerQueueUnlock
  by_cases hl : w.pc.queueLockState = QueueLockState.PLAYER_QUEUE_LOCKED
  · obtain ⟨w1, h1, h2, ⟨w0, h0, he, _, _⟩, h3, h4⟩ :=
      loop_total X (fun pc => pc.unlockQueue)
        (fun pc hpc => by
          have : pc.unlockQueue = true := hpc
          simp [pending, this])
        k { w with pc := { w.pc with unlockQueue := true } } rfl
    refine ⟨w1, by rw [if_pos hl]; exact h1, ?_, h3, h4⟩
    subst he
    exact player_task_unlock X w0 h0 h2
  · refine ⟨w, by rw [if_neg hl], ?_, ⟨rfl, rfl, rfl, rfl, rfl, rfl, rfl⟩,
      fun hp => ⟨hp, rfl, rfl, rfl, rfl, rfl, rfl⟩⟩
    cases hq : w.pc.queueLockState
    · rfl
    · exact absurd hq hl

/-- From every control block `playerStop` returns 0, with the queue slot blank
and the queue unlocked. -/
theorem playerStop_total (X : Externals) (k : Nat) (fd : Int) (w : World) :
    ∃ w1, playerStop X (k + 7) fd w = some (0, w1)
      ∧ w1.pc.queueLockState = QueueLockState.PLAYER_QUEUE_UNLOCKED
      ∧ Kept { w with pc := { w.pc with queueState := QueueState.PLAYER_QUEUE_BLANK } } w1
      ∧ Quiet w w1 := by
  have key : ∀ wa : World, Kept w wa → Quiet w wa →
      ∃ w1, (match playerQueueUnlock X (k + 7)
                { wa with pc := { wa.pc with queueState := QueueState.PLAYER_QUEUE_BLANK } } with
              | none => none
              | some w3 => some ((0 : Int), w3)) = some (0, w1)
        ∧ w1.pc.queueLockState = QueueLockState.PLAYER_QUEUE_UNLOCKED
        ∧ Kept { w with pc := { w.pc with queueState := QueueState.PLAYER_QUEUE_BLANK } } w1
        ∧ Quiet w w1 := by
    intro wa ha hq
    obtain ⟨w1, h1, h2, h3, h4⟩ := playerQueueUnlock_total X k
      { wa with pc := { wa.pc with queueState := QueueState.PLAYER_QUEUE_BLANK } }
    refine ⟨w1, by rw [h1], h2, ?_, ?_⟩
    · obtain ⟨_, a2, a3, a4, a5, a6, a7⟩ := ha
      have hb : Kept { w with pc := { w.pc with queueState := QueueState.PLAYER_QUEUE_BLANK } }
          { wa with pc := { wa.pc with queueState := QueueState.PLAYER_QUEUE_BLANK } } :=
        ⟨rfl, a2, a3, a4, a5, a6, a7⟩
      exact kept_trans hb h3
    · exact quiet_trans hq h4
  unfold playerStop
  by_cases hs : w.pc.state = PlayerState.PLAYER_STATE_STOP
  · rw [if_neg (not_not_intro hs)]
    exact key w ⟨rfl, rfl, rfl, rfl, rfl, rfl, rfl⟩ (fun hp => ⟨hp, rfl, rfl, rfl, rfl, rfl, rfl⟩)
  · obtain ⟨wa, h1, _, _, h3, h4⟩ := loop_total X (fun pc => pc.stop)
      (fun pc hpc => by
        have : pc.stop = true := hpc
        have h2 : 0 < pc.stop.toNat := by simp [this]
        unfold pending
        omega)
      k { w with pc := { w.pc with stop := true } } rfl
    rw [if_pos hs, h1]
    exact key wa h3 h4

/-! ## Queue slot, seek on a stopped player, queue lock -/

/-- C2: `queueSong` returns 0 exactly when `queueState` was Blank at the call and
-1 otherwise; after a call that returned 0 `queueState` is Full, and a second
`queueSong` issued right away returns -1. -/
theorem queueSong_result (X : Externals) (song song2 : Song) (w : World) :
    ((queueSong X song w).1 = 0 ↔ w.pc.queueState = QueueState.PLAYER_QUEUE_BLANK)
      ∧ ((queueSong X song w).1 ≠ 0 → (queueSong X song w).1 = -1)
      ∧ ((queueSong X song w).1 = 0 →
          (queueSong X song w).2.pc.queueState = QueueState.PLAYER_QUEUE_FULL
            ∧ (queueSong X song2 (queueSong X song w).2).1 = -1) := by
  unfold queueSong
  by_cases h : w.pc.queueState = QueueState.PLAYER_QUEUE_BLANK
  · simp [h]
  · simp [h]

/-- C2, witness of `queueSong_result`: the scenario of the spec on a blank slot. -/
theorem queueSong_result_witness :
    (queueSong sampleExternals songA (worldOf idleControl)).1 = 0
      ∧ (queueSong sampleExternals songA (worldOf idleControl)).2.pc.queueState
          = QueueState.PLAYER_QUEUE_FULL
      ∧ (queueSong sampleExternals songB
          (queueSong sampleExternals songA (worldOf idleControl)).2).1 = -1 :=
  ⟨rfl, (queueSong_result sampleExternals songA songB (worldOf idleControl)).2.2 rfl⟩

/-- C3: with `state` Stopped, `playerSeek` returns -1 whatever the fuel, the song
and the seek time, and the seek flag and `seekWhere` are as before the call. -/
theorem playerSeek_stopped (X : Externals) (fuel : Nat) (fd : Int) (song : Song)
    (seek_time : CFloat) (w : World) (h : w.pc.state = PlayerState.PLAYER_STATE_STOP) :
    ∃ w1, playerSeek X fuel fd song seek_time w = some (-1, w1)
      ∧ w1.pc.seek = w.pc.seek ∧ w1.pc.seekWhere = w.pc.seekWhere := by
  unfold playerSeek
  rw [if_pos h]
  exact ⟨_, rfl, rfl, rfl⟩

/-- C3, witness of `playerSeek_stopped` at the start-up control block. -/
theorem playerSeek_stopped_witness :
    (worldOf idleControl).pc.state = PlayerState.PLAYER_STATE_STOP
      ∧ ∃ w1, playerSeek sampleExternals 0 2 songA { bits := 1106247680 } (worldOf idleControl)
            = some (-1, w1)
          ∧ w1.pc.seek = (worldOf idleControl).pc.seek
          ∧ w1.pc.seekWhere = (worldOf idleControl).pc.seekWhere :=
  ⟨rfl, playerSeek_stopped sampleExternals 0 2 songA { bits := 1106247680 }
    (worldOf idleControl) rfl⟩

/-- C4: on a queue that is Locked `playerQueueLock` returns at once and leaves the
world, every field and flag of the control block included, as it was; on a
queue that is Unlocked so does `playerQueueUnlock`. -/
theorem queue_lock_noop (X : Externals) (fuel : Nat) (w : World) :
    (w.pc.queueLockState = QueueLockState.PLAYER_QUEUE_LOCKED →
        playerQueueLock X fuel w = some w)
      ∧ (w.pc.queueLockState = QueueLockState.PLAYER_QUEUE_UNLOCKED →
        playerQueueUnlock X fuel w = some w) := by
  constructor
  · intro h
    unfold playerQueueLock
    rw [if_neg (by rw [h]; decide)]
  · intro h
    unfold playerQueueUnlock
    rw [if_neg (by rw [h]; decide)]

/-- C4, witness of `queue_lock_noop`: unlocking the start-up control block, whose
queue is Unlocked, with no fuel at all. -/
theorem queue_lock_noop_witness :
    (worldOf idleControl).pc.queueLockState = QueueLockState.PLAYER_QUEUE_UNLOCKED
      ∧ playerQueueUnlock sampleExternals 0 (worldOf idleControl) = some (worldOf idleControl) :=
  ⟨rfl, (queue_lock_noop sampleExternals 0 (worldOf idleControl)).2 rfl⟩

/-! ## Metadata mailbox -/

/-- C5: with `metadataState` Read, `playerCurrentDecodeSong` returns a song whose
url is `currentUrl` and whose tag is the one read out of `metadataChunk`, and
sets `metadataState` to Write; a second call right after returns `NULL` and
leaves the world as it is; with `metadataState` not Read the call returns
`NULL`. -/
theorem playerCurrentDecodeSong_mailbox (X : Externals) (w : World) :
    (w.pc.metadataState = MetadataState.PLAYER_METADATA_STATE_READ →
        (playerCurrentDecodeSong X w).1
            = some { url := w.pc.currentUrl, tag := X.metadataChunkToMpdTagDup w.pc.metadataChunk }
          ∧ (playerCurrentDecodeSong X w).2.pc.metadataState
            = MetadataState.PLAYER_METADATA_STATE_WRITE
          ∧ playerCurrentDecodeSong X (playerCurrentDecodeSong X w).2
            = (none, (playerCurrentDecodeSong X w).2))
      ∧ (w.pc.metadataState ≠ MetadataState.PLAYER_METADATA_STATE_READ →
        (playerCurrentDecodeSong X w).1 = none) := by
  constructor
  · intro h
    simp [playerCurrentDecodeSong, resetPlayerMetadata, h]
  · intro h
    simp [playerCurrentDecodeSong, h]

/-- C5, witness of `playerCurrentDecodeSong_mailbox` at a published snapshot. -/
theorem playerCurrentDecodeSong_mailbox_witness :
    (playerCurrentDecodeSong sampleExternals (worldOf { idleControl with
        metadataState := MetadataState.PLAYER_METADATA_STATE_READ,
        currentUrl := "a.ogg".toList, metadataChunk := { bytes := [30] } })).1
      = some { url := "a.ogg".toList, tag := some { time := 30, items := [] } } :=
  ((playerCurrentDecodeSong_mailbox sampleExternals (worldOf { idleControl with
        metadataState := MetadataState.PLAYER_METADATA_STATE_READ,
        currentUrl := "a.ogg".toList, metadataChunk := { bytes := [30] } })).1 rfl).1

/-! ## Error rendering -/

/-- A text shorter than the buffer is stored whole. -/
theorem snprintf_fits (size : Nat) (s : CString) (h : s.length < size) : snprintf size s = s := by
  unfold snprintf
  exact List.take_of_length_le (by omega)

/-- The result of `getPlayerErrorStr` for each error code, when `erroredUrl` fits
its array. -/
theorem getPlayerErrorStr_cases (X : Externals) (w : World)
    (hlen : w.pc.erroredUrl.length ≤ X.MPD_PATH_MAX) :
    getPlayerErrorStr X w =
      match w.pc.error with
      | PlayerError.PLAYER_ERROR_NOERROR => none
      | PlayerError.PLAYER_ERROR_FILENOTFOUND =>
        some ("file \"".toList ++ w.pc.erroredUrl
          ++ "\" does not exist or is inaccessible".toList)
      | PlayerError.PLAYER_ERROR_FILE =>
        some ("problems decoding \"".toList ++ w.pc.erroredUrl ++ "\"".toList)
      | PlayerError.PLAYER_ERROR_AUDIO => some "problems opening audio device".toList
      | PlayerError.PLAYER_ERROR_SYSTEM => some "system error occured".toList
      | PlayerError.PLAYER_ERROR_UNKTYPE =>
        some ("file type  of \"".toList ++ w.pc.erroredUrl ++ "\" is unknown".toList) := by
  unfold getPlayerErrorStr
  dsimp only
  generalize w.pc.error = e
  cases e
  · simp
  all_goals
    dsimp only
    rw [snprintf_fits]
    · simp
    · simp <;> omega

/-- C6: with `erroredUrl` within the capacity `MPD_PATH_MAX` of its array,
`getPlayerErrorStr` returns `NULL` for the code None and, for each of the five
other codes, the text of one template, with `erroredUrl` copied into the
FileNotFound, DecodeFailure and UnknownFileType texts; every such text is
non-empty, and texts of two different codes differ whatever the two urls. -/
theorem getPlayerErrorStr_templates (X : Externals) (w w2 : World)
    (hlen : w.pc.erroredUrl.length ≤ X.MPD_PATH_MAX)
    (hlen2 : w2.pc.erroredUrl.length ≤ X.MPD_PATH_MAX) :
    (w.pc.error = PlayerError.PLAYER_ERROR_NOERROR → getPlayerErrorStr X w = none)
      ∧ (w.pc.error = PlayerError.PLAYER_ERROR_FILENOTFOUND →
          getPlayerErrorStr X w = some ("file \"".toList ++ w.pc.erroredUrl
            ++ "\" does not exist or is inaccessible".toList))
      ∧ (w.pc.error = PlayerError.PLAYER_ERROR_FILE →
          getPlayerErrorStr X w
            = some ("problems decoding \"".toList ++ w.pc.erroredUrl ++ "\"".toList))
      ∧ (w.pc.error = PlayerError.PLAYER_ERROR_AUDIO →
          getPlayerErrorStr X w = some "problems opening audio device".toList)
      ∧ (w.pc.error = PlayerError.PLAYER_ERROR_SYSTEM →
          getPlayerErrorStr X w = some "system error occured".toList)
      ∧ (w.pc.error = PlayerError.PLAYER_ERROR_UNKTYPE →
          getPlayerErrorStr X w = some ("file type  of \"".toList ++ w.pc.erroredUrl
            ++ "\" is unknown".toList))
      ∧ (w.pc.error ≠ PlayerError.PLAYER_ERROR_NOERROR →
          ∃ msg, getPlayerErrorStr X w = some msg ∧ msg ≠ [])
      ∧ (w.pc.error ≠ PlayerError.PLAYER_ERROR_NOERROR →
          w2.pc.error ≠ PlayerError.PLAYER_ERROR_NOERROR → w.pc.error ≠ w2.pc.error →
          getPlayerErrorStr X w ≠ getPlayerErrorStr X w2) := by
  have h1 := getPlayerErrorStr_cases X w hlen
  have h2 := getPlayerErrorStr_cases X w2 hlen2
  refine ⟨?_, ?_, ?_, ?_, ?_, ?_, ?_, ?_⟩
  · intro h; rw [h1, h]
  · intro h; rw [h1, h]
  · intro h; rw [h1, h]
  · intro h; rw [h1, h]
  · intro h; rw [h1, h]
  · intro h; rw [h1, h]
  · intro h
    rw [h1]
    cases he : w.pc.error <;> simp_all
  · intro ha hb hab
    rw [h1, h2]
    cases he : w.pc.error <;> cases he2 : w2.pc.error <;> simp_all

/-- C6, witness of `getPlayerErrorStr_templates` at a latched FileNotFound and a
latched UnknownFileType. -/
theorem getPlayerErrorStr_templates_witness :
    getPlayerErrorStr sampleExternals (worldOf { idleControl with
        error := PlayerError.PLAYER_ERROR_FILENOTFOUND, erroredUrl := "a.ogg".toList })
      = some ("file \"".toList ++ "a.ogg".toList
          ++ "\" does not exist or is inaccessible".toList) :=
  (getPlayerErrorStr_templates sampleExternals
    (worldOf { idleControl with
      error := PlayerError.PLAYER_ERROR_FILENOTFOUND, erroredUrl := "a.ogg".toList })
    (worldOf { idleControl with
      error := PlayerError.PLAYER_ERROR_UNKTYPE, erroredUrl := "b.xyz".toList })
    (by decide) (by decide)).2.1 rfl

/-! ## One iteration of the worker loop -/

/-- C7: one iteration of `player_task` clears the first command flag that is set,
in the order play, stop, seek, pause, closeAudio, lockQueue, unlockQueue, and
leaves the six other flags as they were, so that every flag of lower priority
that was set stays set; with no flag set the iteration leaves the world as it
is. -/
theorem player_task_first_flag (X : Externals) (w : World) :
    (∀ i, (flags w.pc)[i]? = some true → (∀ j, j < i → (flags w.pc)[j]? = some false) →
        flags (player_task X w).pc = (flags w.pc).set i false)
      ∧ ((∀ b ∈ flags w.pc, b = false) → player_task X w = w) := by
  constructor
  · intro i hi hlt
    have hi7 : i < 7 := by
      by_contra hc
      have : (flags w.pc)[i]? = none := List.getElem?_eq_none (by simp [flags]; omega)
      rw [this] at hi
      cases hi
    have h0 := hlt 0
    have h1 := hlt 1
    have h2 := hlt 2
    have h3 := hlt 3
    have h4 := hlt 4
    have h5 := hlt 5
    clear hlt
    interval_cases i <;> simp [flags] at hi h0 h1 h2 h3 h4 h5 <;>
      simp [player_task, flags, decode, *]
  · intro h
    simp [flags] at h
    obtain ⟨a1, a2, a3, a4, a5, a6, a7⟩ := h
    simp [player_task, *]

/-- C7, witness of `player_task_first_flag`: with stop and pause pending, one
iteration clears stop and leaves pause pending. -/
theorem player_task_first_flag_witness :
    flags (player_task sampleExternals
        (worldOf { idleControl with stop := true, pause := true })).pc
      = [false, false, false, true, false, false, false] :=
  (player_task_first_flag sampleExternals
      (worldOf { idleControl with stop := true, pause := true })).1 1 rfl
    (fun j hj => by interval_cases j; rfl)

/-! ## Generic tag scanning -/

/-- C8, as the source has it: the stream variant of `ScanGenericTags` returns true
exactly when the APE scan yields tags, or the APE scan fails, `Rewind`
succeeds and the ID3 scan of the rewound stream yields tags; after a failed
APE scan and a failed `Rewind` it returns false and the ID3 scan is not run;
after a failed APE scan and a successful `Rewind` it is the ID3 scan of the
rewound stream.  The path variant returns true exactly when the APE scan or
the ID3 scan yields tags. -/
theorem ScanGenericTags_result {σ π η γ : Type} (T : TagScanners σ π η γ) (is : σ) (path : π)
    (handler : η) (ctx : γ) :
    ((ScanGenericTags T is handler ctx).1 = true ↔
        (T.tag_ape_scan2 is handler ctx).1 = true
          ∨ ((T.Rewind (T.tag_ape_scan2 is handler ctx).2.1).1 = true
            ∧ (T.tag_id3_scan (T.Rewind (T.tag_ape_scan2 is handler ctx).2.1).2 handler
                (T.tag_ape_scan2 is handler ctx).2.2).1 = true))
      ∧ ((T.tag_ape_scan2 is handler ctx).1 = false →
          (T.Rewind (T.tag_ape_scan2 is handler ctx).2.1).1 = false →
          ScanGenericTags T is handler ctx
            = (false, (T.Rewind (T.tag_ape_scan2 is handler ctx).2.1).2,
                (T.tag_ape_scan2 is handler ctx).2.2))
      ∧ ((T.tag_ape_scan2 is handler ctx).1 = false →
          (T.Rewind (T.tag_ape_scan2 is handler ctx).2.1).1 = true →
          ScanGenericTags T is handler ctx
            = T.tag_id3_scan (T.Rewind (T.tag_ape_scan2 is handler ctx).2.1).2 handler
                (T.tag_ape_scan2 is handler ctx).2.2)
      ∧ ((ScanGenericTags_path T path handler ctx).1 = true ↔
          (T.tag_ape_scan2_path path handler ctx).1 = true
            ∨ (T.tag_id3_scan_path path handler
                (T.tag_ape_scan2_path path handler ctx).2).1 = true) := by
  unfold ScanGenericTags ScanGenericTags_path
  refine ⟨?_, ?_, ?_, ?_⟩
  · by_cases ha : (T.tag_ape_scan2 is handler ctx).1 = true
    · simp [ha]
    · by_cases hr : (T.Rewind (T.tag_ape_scan2 is handler ctx).2.1).1 = true
      · simp [ha, hr]
      · simp [ha, hr]
  · intro ha hr
    simp [ha, hr]
  · intro ha hr
    simp [ha, hr]
  · by_cases ha : (T.tag_ape_scan2_path path handler ctx).1 = true
    · simp [ha]
    · simp [ha]

/-- C8, witness of `ScanGenericTags_result`: a stream without APE tag that rewinds
is scanned for ID3 tags from its start. -/
theorem ScanGenericTags_result_witness :
    ScanGenericTags seekableScanners 0 () 0 = (true, 10, 1) :=
  (ScanGenericTags_result seekableScanners 0 () () 0).2.2.1 rfl rfl

/-- C8, as the spec has it, fails: on a stream that has no APE tag and cannot be
rewound, the ID3 scan would yield tags, and `ScanGenericTags` returns false. -/
theorem ScanGenericTags_counterexample :
    (ScanGenericTags unseekableScanners 0 () 0).1 = false
      ∧ (unseekableScanners.tag_id3_scan
          (unseekableScanners.Rewind (unseekableScanners.tag_ape_scan2 0 () 0).2.1).2 ()
          (unseekableScanners.tag_ape_scan2 0 () 0).2.2).1 = true
      ∧ ¬ ((ScanGenericTags unseekableScanners 0 () 0).1 = true ↔
            (unseekableScanners.tag_ape_scan2 0 () 0).1 = true
              ∨ (unseekableScanners.tag_id3_scan
                  (unseekableScanners.Rewind (unseekableScanners.tag_ape_scan2 0 () 0).2.1).2 ()
                  (unseekableScanners.tag_ape_scan2 0 () 0).2.2).1 = true) := by
  decide

/-! ## Seek -/

/-- The loop `do { wakeup_player_nb(); } while (pc->seek)` of `playerSeek` ends. -/
theorem seek_loop (X : Externals) (k : Nat) (w : World) (h : w.pc.seek = true) :
    ∃ w1, wakeup_while X (fun pc => pc.seek) (k + 7) w = some w1 ∧ w1.pc.seek = false
      ∧ Kept w w1 ∧ Quiet w w1 := by
  obtain ⟨w1, h1, h2, _, h3, h4⟩ := loop_total X (fun pc => pc.seek)
    (fun pc hpc => by
      have : pc.seek = true := hpc
      have h2 : 0 < pc.seek.toNat := by simp [this]
      unfold pending
      omega)
    k w h
  exact ⟨w1, h1, h2, h3, h4⟩

/-- C9: with `state` not Stopped and an error latched, `playerSeek` returns 0
whatever the fuel, and the seek flag, `seekWhere` and `metadataState` are as
before the call; and from every control block `playerSeek` returns (fuel 7 is
enough), the result being -1 exactly when `state` was Stopped. -/
theorem playerSeek_result (X : Externals) (k : Nat) (fd : Int) (song : Song)
    (seek_time : CFloat) (w : World) :
    (w.pc.state ≠ PlayerState.PLAYER_STATE_STOP →
        w.pc.error ≠ PlayerError.PLAYER_ERROR_NOERROR →
        ∃ w1, playerSeek X k fd song seek_time w = some (0, w1)
          ∧ w1.pc.seek = w.pc.seek ∧ w1.pc.seekWhere = w.pc.seekWhere
          ∧ w1.pc.metadataState = w.pc.metadataState)
      ∧ (∃ r w1, playerSeek X (k + 7) fd song seek_time w = some (r, w1)
          ∧ (r = -1 ↔ w.pc.state = PlayerState.PLAYER_STATE_STOP)) := by
  constructor
  · intro hs he
    unfold playerSeek
    rw [if_neg hs]
    dsimp only
    have he1 : (if w.pc.utf8url ≠ X.get_song_url song then set_current_song X song w.pc
        else w.pc).error ≠ PlayerError.PLAYER_ERROR_NOERROR := by
      split_ifs
      · exact he
      · exact he
    rw [if_neg he1]
    refine ⟨_, rfl, ?_⟩
    by_cases hu : w.pc.utf8url ≠ X.get_song_url song
    · rw [if_pos hu]
      exact ⟨rfl, rfl, rfl⟩
    · rw [if_neg hu]
      exact ⟨rfl, rfl, rfl⟩
  · unfold playerSeek
    by_cases hs : w.pc.state = PlayerState.PLAYER_STATE_STOP
    · rw [if_pos hs]
      exact ⟨-1, _, rfl, by simp [hs]⟩
    · rw [if_neg hs]
      have hloop : ∀ v : World, v.pc.seek = true →
          ∃ r w1, (match wakeup_while X (fun pc => pc.seek) (k + 7) v with
                    | none => none
                    | some w1 => some ((0 : Int), w1)) = some (r, w1)
            ∧ (r = -1 ↔ w.pc.state = PlayerState.PLAYER_STATE_STOP) := by
        intro v hv
        obtain ⟨w1, h1, _⟩ := seek_loop X k v hv
        rw [h1]
        exact ⟨0, w1, rfl, by simp [hs]⟩
      dsimp only
      split_ifs with hu he
      · exact hloop _ rfl
      · exact ⟨0, _, rfl, by simp [hs]⟩
      · exact hloop _ rfl
      · exact ⟨0, _, rfl, by simp [hs]⟩

/-- C9, witness of `playerSeek_result`: a playing control block with a latched
decode failure. -/
theorem playerSeek_result_witness :
    ∃ w1, playerSeek sampleExternals 0 2 songA { bits := 1106247680 }
          (worldOf { playingControl with error := PlayerError.PLAYER_ERROR_FILE })
        = some (0, w1)
      ∧ w1.pc.seek = false ∧ w1.pc.seekWhere = { bits := 0 }
      ∧ w1.pc.metadataState = MetadataState.PLAYER_METADATA_STATE_WRITE :=
  (playerSeek_result sampleExternals 0 2 songA { bits := 1106247680 }
    (worldOf { playingControl with error := PlayerError.PLAYER_ERROR_FILE })).1
    (by decide) (by decide)

/-! ## Play -/

/-- With the two values of `metadataState`, `resetPlayerMetadata` leaves it Write
and writes nothing else. -/
theorem resetPlayerMetadata_eq (pc : PlayerControl) :
    resetPlayerMetadata pc
      = { pc with metadataState := MetadataState.PLAYER_METADATA_STATE_WRITE } := by
  unfold resetPlayerMetadata
  by_cases h : pc.metadataState = MetadataState.PLAYER_METADATA_STATE_READ
  · rw [if_pos h]
  · rw [if_neg h]
    have hw : pc.metadataState = MetadataState.PLAYER_METADATA_STATE_WRITE := by
      cases hm : pc.metadataState
      · exact absurd hm h
      · rfl
    cases pc
    simp_all

/-- The loop `do { wakeup_player_nb(); } while (pc->play)` of `playerPlay` ends
after the iteration of the worker that runs `decode()`. -/
theorem play_loop (X : Externals) (k : Nat) (w : World) (h : w.pc.play = true) :
    wakeup_while X (fun pc => pc.play) (k + 1) w
      = some { w with pc := decode X w.pc,
                      trace := w.trace ++ [Event.decode, Event.wakeup_main_task] } := by
  simp [wakeup_while, player_task, h, decode]

/-- C10, as the source has it: from every control block `playerPlay` returns 0
(fuel 7 is enough); the worker is handed a control block with `play` set and
`metadataState` Write, and the control block at return is what `decode()` made
of it: the current-song snapshot is that of the song, `queueState` is Blank,
`queueLockState` Unlocked, `play` clear, and `metadataState` is what the
decoder left there. -/
theorem playerPlay_returns (X : Externals) (k : Nat) (fd : Int) (song : Song) (w : World) :
    ∃ w0 w1 : World, playerPlay X (k + 7) fd song w = some (0, w1)
      ∧ w0.pc.play = true
      ∧ w0.pc.metadataState = MetadataState.PLAYER_METADATA_STATE_WRITE
      ∧ w1.pc = decode X w0.pc
      ∧ w1.pc.utf8url = X.get_song_url song
      ∧ w1.pc.fileTime = (match song.tag with
          | some t => t.time
          | none => 0)
      ∧ w1.pc.fileMetadataChunk = X.copyMpdTagToMetadataChunk song.tag w.pc.fileMetadataChunk
      ∧ w1.pc.queueState = QueueState.PLAYER_QUEUE_BLANK
      ∧ w1.pc.queueLockState = QueueLockState.PLAYER_QUEUE_UNLOCKED
      ∧ w1.pc.play = false
      ∧ w1.pc.metadataState = (X.decoder w0.pc).metadataState := by
  obtain ⟨ws, hs1, hs2, hs3, _⟩ := playerStop_total X k fd w
  obtain ⟨hq, _, _, hc, _, _, _⟩ := hs3
  refine ⟨{ ws with pc := { resetPlayerMetadata (set_current_song X song ws.pc) with
                            play := true } },
    { ws with pc := decode X { resetPlayerMetadata (set_current_song X song ws.pc) with
                               play := true },
              trace := ws.trace ++ [Event.decode, Event.wakeup_main_task] },
    ?_, rfl, ?_, rfl, ?_, ?_, ?_, ?_, ?_, rfl, rfl⟩
  · unfold playerPlay
    rw [hs1]
    dsimp only
    rw [if_neg (by decide)]
    rw [play_loop X (k + 6) _ rfl]
  · rw [resetPlayerMetadata_eq]
  · rw [resetPlayerMetadata_eq]
    rfl
  · rw [resetPlayerMetadata_eq]
    rfl
  · rw [resetPlayerMetadata_eq]
    show X.copyMpdTagToMetadataChunk song.tag ws.pc.fileMetadataChunk = _
    rw [hc]
  · rw [resetPlayerMetadata_eq]
    exact hq
  · rw [resetPlayerMetadata_eq]
    exact hs2

/-- C10, as the spec has it, fails: with a decoder that publishes a metadata
snapshot while it runs, `playerPlay` returns 0 with `metadataState` Read. -/
theorem playerPlay_metadata_counterexample :
    ∃ w1, playerPlay publishingExternals 7 2 songA (worldOf idleControl) = some (0, w1)
      ∧ w1.pc.metadataState = MetadataState.PLAYER_METADATA_STATE_READ
      ∧ w1.pc.metadataState ≠ MetadataState.PLAYER_METADATA_STATE_WRITE :=
  ⟨_, rfl, rfl, by decide⟩

/-! ## What the worker keeps -/

theorem worked_refl (X : Externals) (a : World) : Worked X a a :=
  ⟨⟨rfl, rfl, rfl, rfl, rfl, rfl, rfl⟩, fun hp => ⟨hp, rfl, rfl, rfl, rfl, rfl, rfl⟩,
    Nat.le_refl _, fun _ => ⟨rfl, rfl⟩, Nat.le_refl _, fun h => ⟨h, rfl⟩⟩

/-- One iteration of the worker loop is within `Worked`. -/
theorem player_task_worked (X : Externals) (w : World) : Worked X w (player_task X w) := by
  refine ⟨player_task_kept X w, player_task_quiet X w, ?_, ?_, ?_, ?_⟩
  · by_cases h : 0 < pending w.pc
    · have := pending_player_task X w h
      omega
    · have h0 : pending w.pc = 0 := by omega
      have hb : ∀ b : Bool, b.toNat = 0 → b = false := fun b => by cases b <;> simp
      unfold pending at h0
      have h1 := hb w.pc.play (by omega)
      have h2 := hb w.pc.stop (by omega)
      have h3 := hb w.pc.seek (by omega)
      have h4 := hb w.pc.pause (by omega)
      have h5 := hb w.pc.closeAudio (by omega)
      have h6 := hb w.pc.lockQueue (by omega)
      have h7 := hb w.pc.unlockQueue (by omega)
      simp [player_task, h1, h2, h3, h4, h5, h6, h7]
  · intro hX
    unfold player_task
    simp only []
    split_ifs with h1 h2 h3 h4 h5 h6 h7 <;> simp_all [decode, hX w.pc]
  · unfold player_task
    simp only []
    split_ifs with h1 h2 h3 h4 h5 h6 h7 <;> simp
  · intro hc
    unfold player_task closeCount
    simp only []
    split_ifs with h1 h2 h3 h4 h5 h6 h7 <;> simp_all [decode, List.count_append, List.count_cons]

theorem worked_trans {X : Externals} {a b c : World} (h1 : Worked X a b) (h2 : Worked X b c) :
    Worked X a c := by
  obtain ⟨a1, a2, a3, a4, a5, a6⟩ := h1
  obtain ⟨b1, b2, b3, b4, b5, b6⟩ := h2
  refine ⟨kept_trans a1 b1, quiet_trans a2 b2, Nat.le_trans b3 a3, ?_, Nat.le_trans a5 b5, ?_⟩
  · intro hX
    exact ⟨(b4 hX).1.trans (a4 hX).1, (b4 hX).2.trans (a4 hX).2⟩
  · intro hc
    obtain ⟨c1, c2⟩ := a6 hc
    obtain ⟨d1, d2⟩ := b6 c1
    exact ⟨d1, d2.trans c2⟩

/-- A loop `do { wakeup_player(); } while (pc->flag)` entered with the flag set
in a world that satisfies `P` ends within seven wakeups, on an iteration that
starts in a world that satisfies `P`, provided every iteration that leaves the
flag set keeps `P`. -/
theorem loop_inv (X : Externals) (flag : PlayerControl → Bool)
    (hflag : ∀ pc, flag pc = true → 0 < pending pc) (P : World → Prop)
    (hstep : ∀ v, P v → flag v.pc = true → flag (player_task X v).pc = true →
      P (player_task X v))
    (k : Nat) (w : World) (hP : P w) (h : flag w.pc = true) :
    ∃ w0 w1, wakeup_while X flag (k + 7) w = some w1 ∧ P w0 ∧ flag w0.pc = true
      ∧ w1 = player_task X w0 ∧ flag w1.pc = false := by
  obtain ⟨w1, hw1⟩ := wakeup_while_terminates X flag hflag (k + 7) w h
    (by have := pending_le w.pc; omega)
  have hk : ∀ n v v1, P v → flag v.pc = true → wakeup_while X flag n v = some v1 →
      ∃ w0, P w0 ∧ flag w0.pc = true ∧ v1 = player_task X w0 ∧ flag v1.pc = false := by
    intro n
    induction n with
    | zero => intro v v1 _ _ hv; simp [wakeup_while] at hv
    | succ n ih =>
      intro v v1 hPv hfv hv
      simp only [wakeup_while] at hv
      by_cases hf : flag (player_task X v).pc = true
      · rw [if_pos hf] at hv
        exact ih _ _ (hstep v hPv hfv hf) hf hv
      · rw [if_neg hf] at hv
        cases hv
        exact ⟨v, hPv, hfv, rfl, by simpa using hf⟩
  obtain ⟨w0, h0, h1, h2, h3⟩ := hk _ _ _ hP h hw1
  exact ⟨w0, w1, hw1, h0, h1, h2, h3⟩

/-- The loop ends on the iteration that clears the flag, and all its iterations
are within `Worked`. -/
theorem loop_worked (X : Externals) (flag : PlayerControl → Bool)
    (hflag : ∀ pc, flag pc = true → 0 < pending pc) (k : Nat) (w : World)
    (h : flag w.pc = true) :
    ∃ w0 w1, wakeup_while X flag (k + 7) w = some w1 ∧ Worked X w w0 ∧ flag w0.pc = true
      ∧ w1 = player_task X w0 ∧ flag w1.pc = false ∧ Worked X w w1
      ∧ pending w1.pc + 1 ≤ pending w.pc := by
  obtain ⟨w0, w1, h1, h2, h3, h4, h5⟩ := loop_inv X flag hflag (fun v => Worked X w v)
    (fun v hv _ _ => worked_trans hv (player_task_worked X v)) k w (worked_refl X w) h
  refine ⟨w0, w1, h1, h2, h3, h4, h5, ?_, ?_⟩
  · rw [h4]
    exact worked_trans h2 (player_task_worked X w0)
  · have := pending_player_task X w0 (hflag _ h3)
    have := h2.2.2.1
    rw [h4]
    omega

/-! ## Commands from any control block -/

/-- Setting one more flag adds at most one to the number of flags set. -/
theorem pending_set (pc : PlayerControl) :
    pending { pc with stop := true } ≤ pending pc + 1
      ∧ pending { pc with seek := true } ≤ pending pc + 1
      ∧ pending { pc with pause := true } ≤ pending pc + 1
      ∧ pending { pc with closeAudio := true } ≤ pending pc + 1
      ∧ pending { pc with lockQueue := true } ≤ pending pc + 1
      ∧ pending { pc with unlockQueue := true } ≤ pending pc + 1
      ∧ pending { pc with play := true } ≤ pending pc + 1 := by
  have hb : ∀ b : Bool, b.toNat ≤ 1 := fun b => by cases b <;> simp
  have h1 := hb pc.play
  have h2 := hb pc.stop
  have h3 := hb pc.seek
  have h4 := hb pc.pause
  have h5 := hb pc.closeAudio
  have h6 := hb pc.lockQueue
  have h7 := hb pc.unlockQueue
  simp only [pending, Bool.toNat_true]
  omega

theorem flag_pending (pc : PlayerControl) :
    (pc.stop = true → 0 < pending pc) ∧ (pc.seek = true → 0 < pending pc)
      ∧ (pc.pause = true → 0 < pending pc) ∧ (pc.closeAudio = true → 0 < pending pc)
      ∧ (pc.lockQueue = true → 0 < pending pc) ∧ (pc.unlockQueue = true → 0 < pending pc)
      ∧ (pc.play = true → 0 < pending pc) := by
  unfold pending
  refine ⟨?_, ?_, ?_, ?_, ?_, ?_, ?_⟩ <;> intro h <;> simp [h]

/-- The stop command: `pc->stop = 1; do { wakeup_player(); } while (pc->stop);`. -/
theorem submit_stop (X : Externals) (k : Nat) (w : World) :
    ∃ w0 w1, wakeup_while X (fun pc => pc.stop) (k + 7)
          { w with pc := { w.pc with stop := true } } = some w1
      ∧ w1 = player_task X w0 ∧ w0.pc.stop = true ∧ w1.pc.stop = false
      ∧ Worked X w w1 := by
  obtain ⟨w0, w1, h1, h2, h3, h4, h5, h6, h7⟩ := loop_worked X (fun pc => pc.stop)
    (fun pc => (flag_pending pc).1) k { w with pc := { w.pc with stop := true } } rfl
  refine ⟨w0, w1, h1, h4, h3, h5, h6.1, h6.2.1, ?_, h6.2.2.2.1, h6.2.2.2.2.1, h6.2.2.2.2.2⟩
  exact Nat.le_of_succ_le_succ (Nat.le_trans h7 (pending_set w.pc).1)

/-- The pause command: `pc->pause = 1; do { wakeup_player(); } while (pc->pause);`. -/
theorem submit_pause (X : Externals) (k : Nat) (w : World) :
    ∃ w0 w1, wakeup_while X (fun pc => pc.pause) (k + 7)
          { w with pc := { w.pc with pause := true } } = some w1
      ∧ w1 = player_task X w0 ∧ w0.pc.pause = true ∧ w1.pc.pause = false
      ∧ Worked X w w1 ∧ w.trace.length ≤ w0.trace.length := by
  obtain ⟨w0, w1, h1, h2, h3, h4, h5, h6, h7⟩ := loop_worked X (fun pc => pc.pause)
    (fun pc => (flag_pending pc).2.2.1) k { w with pc := { w.pc with pause := true } } rfl
  refine ⟨w0, w1, h1, h4, h3, h5, ⟨h6.1, h6.2.1, ?_, h6.2.2.2.1, h6.2.2.2.2.1, h6.2.2.2.2.2⟩,
    h2.2.2.2.2.1⟩
  exact Nat.le_of_succ_le_succ (Nat.le_trans h7 (pending_set w.pc).2.2.1)

/-- The seek command: `pc->seek = 1; do { wakeup_player_nb(); } while (pc->seek);`. -/
theorem submit_seek (X : Externals) (k : Nat) (w : World) :
    ∃ w0 w1, wakeup_while X (fun pc => pc.seek) (k + 7)
          { w with pc := { w.pc with seek := true } } = some w1
      ∧ w1 = player_task X w0 ∧ w0.pc.seek = true ∧ w1.pc.seek = false
      ∧ Worked X w w1 := by
  obtain ⟨w0, w1, h1, h2, h3, h4, h5, h6, h7⟩ := loop_worked X (fun pc => pc.seek)
    (fun pc => (flag_pending pc).2.1) k { w with pc := { w.pc with seek := true } } rfl
  refine ⟨w0, w1, h1, h4, h3, h5, h6.1, h6.2.1, ?_, h6.2.2.2.1, h6.2.2.2.2.1, h6.2.2.2.2.2⟩
  exact Nat.le_of_succ_le_succ (Nat.le_trans h7 (pending_set w.pc).2.1)

/-- The lock command of `playerQueueLock`. -/
theorem submit_lockQueue (X : Externals) (k : Nat) (w : World) :
    ∃ w0 w1, wakeup_while X (fun pc => pc.lockQueue) (k + 7)
          { w with pc := { w.pc with lockQueue := true } } = some w1
      ∧ w1 = player_task X w0 ∧ w0.pc.lockQueue = true ∧ w1.pc.lockQueue = false
      ∧ Worked X w w1 := by
  obtain ⟨w0, w1, h1, h2, h3, h4, h5, h6, h7⟩ := loop_worked X (fun pc => pc.lockQueue)
    (fun pc => (flag_pending pc).2.2.2.2.1) k { w with pc := { w.pc with lockQueue := true } } rfl
  refine ⟨w0, w1, h1, h4, h3, h5, h6.1, h6.2.1, ?_, h6.2.2.2.1, h6.2.2.2.2.1, h6.2.2.2.2.2⟩
  exact Nat.le_of_succ_le_succ (Nat.le_trans h7 (pending_set w.pc).2.2.2.2.1)

/-- The unlock command of `playerQueueUnlock`. -/
theorem submit_unlockQueue (X : Externals) (k : Nat) (w : World) :
    ∃ w0 w1, wakeup_while X (fun pc => pc.unlockQueue) (k + 7)
          { w with pc := { w.pc with unlockQueue := true } } = some w1
      ∧ w1 = player_task X w0 ∧ w0.pc.unlockQueue = true ∧ w1.pc.unlockQueue = false
      ∧ Worked X w w1 := by
  obtain ⟨w0, w1, h1, h2, h3, h4, h5, h6, h7⟩ := loop_worked X (fun pc => pc.unlockQueue)
    (fun pc => (flag_pending pc).2.2.2.2.2.1) k
    { w with pc := { w.pc with unlockQueue := true } } rfl
  refine ⟨w0, w1, h1, h4, h3, h5, h6.1, h6.2.1, ?_, h6.2.2.2.1, h6.2.2.2.2.1, h6.2.2.2.2.2⟩
  exact Nat.le_of_succ_le_succ (Nat.le_trans h7 (pending_set w.pc).2.2.2.2.2.1)

/-- An iteration that clears `lockQueue` is the one that locks the queue. -/
theorem player_task_lock (X : Externals) (w : World) (h : w.pc.lockQueue = true)
    (h1 : (player_task X w).pc.lockQueue = false) :
    (player_task X w).pc.queueLockState = QueueLockState.PLAYER_QUEUE_LOCKED := by
  revert h1
  unfold player_task
  simp only []
  split_ifs <;> simp_all [decode]

/-- An iteration that clears `pause` is the pause handler: it appends its
acknowledgement to the trace. -/
theorem player_task_pause (X : Externals) (w : World) (h : w.pc.pause = true)
    (h1 : (player_task X w).pc.pause = false) :
    (player_task X w).trace = w.trace ++ [Event.wakeup_main_task] := by
  revert h1
  unfold player_task
  simp only []
  split_ifs <;> simp_all [decode]

/-- From every control block `playerQueueUnlock` returns with the queue unlocked,
the worker having done nothing outside `Worked`. -/
theorem playerQueueUnlock_worked (X : Externals) (k : Nat) (w : World) :
    ∃ w1, playerQueueUnlock X (k + 7) w = some w1
      ∧ w1.pc.queueLockState = QueueLockState.PLAYER_QUEUE_UNLOCKED ∧ Worked X w w1 := by
  unfold playerQueueUnlock
  by_cases hl : w.pc.queueLockState = QueueLockState.PLAYER_QUEUE_LOCKED
  · obtain ⟨w0, w1, h1, h2, h3, h4, h5⟩ := submit_unlockQueue X k w
    refine ⟨w1, by rw [if_pos hl]; exact h1, ?_, h5⟩
    subst h2
    exact player_task_unlock X w0 h3 h4
  · refine ⟨w, by rw [if_neg hl], ?_, worked_refl X w⟩
    cases hq : w.pc.queueLockState
    · rfl
    · exact absurd hq hl

/-- From every control block `playerQueueLock` returns with the queue locked,
the worker having done nothing outside `Worked`. -/
theorem playerQueueLock_worked (X : Externals) (k : Nat) (w : World) :
    ∃ w1, playerQueueLock X (k + 7) w = some w1
      ∧ w1.pc.queueLockState = QueueLockState.PLAYER_QUEUE_LOCKED ∧ Worked X w w1 := by
  unfold playerQueueLock
  by_cases hl : w.pc.queueLockState = QueueLockState.PLAYER_QUEUE_UNLOCKED
  · obtain ⟨w0, w1, h1, h2, h3, h4, h5⟩ := submit_lockQueue X k w
    refine ⟨w1, by rw [if_pos hl]; exact h1, ?_, h5⟩
    subst h2
    exact player_task_lock X w0 h3 h4
  · refine ⟨w, by rw [if_neg hl], ?_, worked_refl X w⟩
    cases hq : w.pc.queueLockState
    · exact absurd hq hl
    · rfl

/-- From every control block `playerStop` returns 0 with the queue slot blank and
the queue unlocked; apart from `queueState`, nothing is written outside
`Worked`. -/
theorem playerStop_worked (X : Externals) (k : Nat) (fd : Int) (w : World) :
    ∃ w1, playerStop X (k + 7) fd w = some (0, w1)
      ∧ w1.pc.queueLockState = QueueLockState.PLAYER_QUEUE_UNLOCKED
      ∧ w1.pc.queueState = QueueState.PLAYER_QUEUE_BLANK
      ∧ Worked X { w with pc := { w.pc with queueState := QueueState.PLAYER_QUEUE_BLANK } } w1 := by
  have key : ∀ wa : World, Worked X w wa →
      ∃ w1, (match playerQueueUnlock X (k + 7)
                { wa with pc := { wa.pc with queueState := QueueState.PLAYER_QUEUE_BLANK } } with
              | none => none
              | some w3 => some ((0 : Int), w3)) = some (0, w1)
        ∧ w1.pc.queueLockState = QueueLockState.PLAYER_QUEUE_UNLOCKED
        ∧ w1.pc.queueState = QueueState.PLAYER_QUEUE_BLANK
        ∧ Worked X { w with pc := { w.pc with queueState := QueueState.PLAYER_QUEUE_BLANK } }
            w1 := by
    intro wa ha
    obtain ⟨w1, h1, h2, h3⟩ := playerQueueUnlock_worked X k
      { wa with pc := { wa.pc with queueState := QueueState.PLAYER_QUEUE_BLANK } }
    have hb : Worked X { w with pc := { w.pc with queueState := QueueState.PLAYER_QUEUE_BLANK } }
        { wa with pc := { wa.pc with queueState := QueueState.PLAYER_QUEUE_BLANK } } := by
      obtain ⟨⟨_, a2, a3, a4, a5, a6, a7⟩, b, c, d, e, f⟩ := ha
      exact ⟨⟨rfl, a2, a3, a4, a5, a6, a7⟩, b, c, d, e, f⟩
    exact ⟨w1, by rw [h1], h2, h3.1.1, worked_trans hb h3⟩
  unfold playerStop
  by_cases hs : w.pc.state = PlayerState.PLAYER_STATE_STOP
  · rw [if_neg (not_not_intro hs)]
    exact key w (worked_refl X w)
  · obtain ⟨w0, wa, h1, _, _, _, h5⟩ := submit_stop X k w
    rw [if_pos hs, h1]
    exact key wa h5

/-- From every control block `playerPause` returns 0; with `state` Stopped it
does nothing, otherwise it returns after the iteration of the worker that
clears `pause`. -/
theorem playerPause_worked (X : Externals) (k : Nat) (fd : Int) (w : World) :
    ∃ w1, playerPause X (k + 7) fd w = some (0, w1) ∧ Worked X w w1
      ∧ (w.pc.state = PlayerState.PLAYER_STATE_STOP → w1 = w)
      ∧ (w.pc.state ≠ PlayerState.PLAYER_STATE_STOP →
          wakeup_while X (fun pc => pc.pause) (k + 7)
              { w with pc := { w.pc with pause := true } } = some w1
            ∧ w1.pc.pause = false ∧ w.trace.length < w1.trace.length) := by
  unfold playerPause
  by_cases hs : w.pc.state = PlayerState.PLAYER_STATE_STOP
  · rw [if_neg (not_not_intro hs)]
    exact ⟨w, rfl, worked_refl X w, fun _ => rfl, fun h => absurd hs h⟩
  · obtain ⟨w0, w1, h1, h2, h3, h4, h5, h6⟩ := submit_pause X k w
    rw [if_pos hs, h1]
    refine ⟨w1, rfl, h5, fun h => absurd h hs, fun _ => ⟨rfl, h4, ?_⟩⟩
    have := player_task_pause X w0 h3 (h2 ▸ h4)
    rw [h2, this]
    simp
    omega

/-! ## Pause -/

/-- C11: `playerSetPause` returns 0 in all cases (fuel 7 is enough).  When the
flag mismatches the state (`state` Playing and a non-zero flag, or `state`
Paused and a zero flag) it issues the pause command: it returns the world in
which the loop of `playerPause`, entered with `pause` set, ends, with `pause`
clear again and the worker woken.  In every other case, `state` Stopped
included, it returns the world as it was: no flag set, no field changed. -/
theorem playerSetPause_mismatch (X : Externals) (k : Nat) (fd : Int) (pause_flag : Int)
    (w : World) :
    (((w.pc.state = PlayerState.PLAYER_STATE_PLAY ∧ pause_flag ≠ 0)
          ∨ (w.pc.state = PlayerState.PLAYER_STATE_PAUSE ∧ pause_flag = 0)) →
        ∃ w1, playerSetPause X (k + 7) fd pause_flag w = some (0, w1)
          ∧ wakeup_while X (fun pc => pc.pause) (k + 7)
              { w with pc := { w.pc with pause := true } } = some w1
          ∧ w1.pc.pause = false ∧ w.trace.length < w1.trace.length)
      ∧ (¬ ((w.pc.state = PlayerState.PLAYER_STATE_PLAY ∧ pause_flag ≠ 0)
            ∨ (w.pc.state = PlayerState.PLAYER_STATE_PAUSE ∧ pause_flag = 0)) →
          ∀ fuel, playerSetPause X fuel fd pause_flag w = some (0, w)) := by
  obtain ⟨w1, h1, _, _, h4⟩ := playerPause_worked X k fd w
  constructor
  · intro hm
    have hs : w.pc.state ≠ PlayerState.PLAYER_STATE_STOP := by
      rcases hm with ⟨h, _⟩ | ⟨h, _⟩ <;> rw [h] <;> decide
    obtain ⟨h5, h6, h7⟩ := h4 hs
    refine ⟨w1, ?_, h5, h6, h7⟩
    unfold playerSetPause
    rcases hm with ⟨h, hf⟩ | ⟨h, hf⟩
    · simp [h, hf, h1]
    · simp [h, hf, h1]
  · intro hm fuel
    unfold playerSetPause
    cases hs : w.pc.state
    · simp
    · by_cases hf : pause_flag = 0
      · exact absurd (Or.inr ⟨hs, hf⟩) hm
      · simp [hf]
    · by_cases hf : pause_flag = 0
      · simp [hf]
      · exact absurd (Or.inl ⟨hs, hf⟩) hm

/-- C11, witness of `playerSetPause_mismatch`: pausing a playing player. -/
theorem playerSetPause_mismatch_witness :
    ∃ w1, playerSetPause sampleExternals 7 2 1 (worldOf playingControl) = some (0, w1)
      ∧ wakeup_while sampleExternals (fun pc => pc.pause) 7
          { worldOf playingControl with pc := { playingControl with pause := true } } = some w1
      ∧ w1.pc.pause = false
      ∧ (worldOf playingControl).trace.length < w1.trace.length :=
  (playerSetPause_mismatch sampleExternals 0 2 1 (worldOf playingControl)).1
    (Or.inl ⟨rfl, by decide⟩)

/-! ## Close audio, set pause, play from any control block -/

/-- An iteration that finds `closeAudio` set and leaves it set closes no audio
device and leaves the queue lock alone. -/
theorem player_task_closeAudio_pending (X : Externals) (w : World)
    (h : w.pc.closeAudio = true) (h1 : (player_task X w).pc.closeAudio = true) :
    (player_task X w).pc.queueLockState = w.pc.queueLockState
      ∧ closeCount (player_task X w) = closeCount w := by
  revert h1
  unfold player_task closeCount
  simp only []
  split_ifs <;> simp_all [decode, List.count_append, List.count_cons]

/-- An iteration that clears `closeAudio` is the one that calls
`closeAudioDevice()`; it found `play`, `stop`, `seek` and `pause` clear. -/
theorem player_task_closeAudio (X : Externals) (w : World) (h : w.pc.closeAudio = true)
    (h1 : (player_task X w).pc.closeAudio = false) :
    w.pc.play = false ∧ w.pc.stop = false ∧ w.pc.seek = false ∧ w.pc.pause = false
      ∧ (player_task X w).trace = w.trace ++ [Event.closeAudioDevice, Event.wakeup_main_task]
      ∧ (player_task X w).pc.queueLockState = w.pc.queueLockState
      ∧ (player_task X w).pc.stop = false := by
  revert h1
  unfold player_task
  simp only []
  split_ifs <;> simp_all [decode]

/-- The closeAudio command of `playerCloseAudio`: the loop ends on the one
iteration that calls `closeAudioDevice()`. -/
theorem submit_closeAudio (X : Externals) (k : Nat) (w : World) :
    ∃ w0 w1, wakeup_while X (fun pc => pc.closeAudio) (k + 7)
          { w with pc := { w.pc with closeAudio := true } } = some w1
      ∧ w1 = player_task X w0 ∧ w0.pc.closeAudio = true ∧ w1.pc.closeAudio = false
      ∧ Kept w w1 ∧ Quiet w w1 ∧ pending w1.pc ≤ pending w.pc
      ∧ (Inert X → w1.pc.state = w.pc.state ∧ w1.pc.error = w.pc.error)
      ∧ w.trace.length ≤ w0.trace.length
      ∧ w0.pc.queueLockState = w.pc.queueLockState ∧ closeCount w0 = closeCount w := by
  obtain ⟨w0, w1, h1, ⟨h2, h2a, h2b⟩, h3, h4, h5⟩ := loop_inv X (fun pc => pc.closeAudio)
    (fun pc => (flag_pending pc).2.2.2.1)
    (fun v => Worked X { w with pc := { w.pc with closeAudio := true } } v
      ∧ v.pc.queueLockState = w.pc.queueLockState ∧ closeCount v = closeCount w)
    (fun v hv hf hf1 => ⟨worked_trans hv.1 (player_task_worked X v),
      (player_task_closeAudio_pending X v hf hf1).1.trans hv.2.1,
      (player_task_closeAudio_pending X v hf hf1).2.trans hv.2.2⟩)
    k { w with pc := { w.pc with closeAudio := true } } ⟨worked_refl X _, rfl, rfl⟩ rfl
  have h6 := worked_trans h2 (player_task_worked X w0)
  rw [← h4] at h6
  refine ⟨w0, w1, h1, h4, h3, h5, h6.1, h6.2.1, ?_, h6.2.2.2.1, h2.2.2.2.2.1, h2a, h2b⟩
  have h7 := pending_player_task X w0 ((flag_pending w0.pc).2.2.2.1 h3)
  rw [← h4] at h7
  have h8 : pending w0.pc ≤ pending w.pc + 1 :=
    Nat.le_trans h2.2.2.1 (pending_set w.pc).2.2.2.1
  omega

/-- From every control block `playerCloseAudio` returns, on the iteration of the
worker that calls `closeAudioDevice()`. -/
theorem playerCloseAudio_worked (X : Externals) (k : Nat) (w : World) :
    ∃ w0 w1, playerCloseAudio X (k + 7) w = some w1
      ∧ w1 = player_task X w0 ∧ w0.pc.closeAudio = true ∧ w0.pc.stop = false
      ∧ w1.trace = w0.trace ++ [Event.closeAudioDevice, Event.wakeup_main_task]
      ∧ w.trace.length ≤ w0.trace.length
      ∧ w1.pc.closeAudio = false
      ∧ w1.pc.queueState = QueueState.PLAYER_QUEUE_BLANK
      ∧ w1.pc.queueLockState = QueueLockState.PLAYER_QUEUE_UNLOCKED
      ∧ pending w1.pc ≤ pending w.pc
      ∧ (Inert X → w1.pc.state = w.pc.state ∧ w1.pc.error = w.pc.error)
      ∧ (w.pc.closeAudio = false → closeCount w0 = closeCount w) := by
  obtain ⟨ws, s1, s2, s3, s4⟩ := playerStop_worked X k 2 w
  obtain ⟨w0, w1, c1, c2, c3, c4, c5, _, c7, c8, c9, c10, c11⟩ := submit_closeAudio X k ws
  have hl := player_task_closeAudio X w0 c3 (c2 ▸ c4)
  refine ⟨w0, w1, ?_, c2, c3, hl.2.1, ?_, Nat.le_trans s4.2.2.2.2.1 c9, c4, c5.1.trans s3, ?_,
    Nat.le_trans c7 s4.2.2.1, ?_, ?_⟩
  · unfold playerCloseAudio
    rw [s1]
    dsimp only
    rw [if_neg (by decide)]
    exact c1
  · rw [c2]
    exact hl.2.2.2.2.1
  · rw [c2, hl.2.2.2.2.2.1, c10]
    exact s2
  · intro hX
    exact ⟨(c8 hX).1.trans (s4.2.2.2.1 hX).1, (c8 hX).2.trans (s4.2.2.2.1 hX).2⟩
  · intro hc
    exact c11.trans (s4.2.2.2.2.2 hc).2

/-- From every control block `playerSetPause` returns 0, the worker having done
nothing outside `Worked`. -/
theorem playerSetPause_worked (X : Externals) (k : Nat) (fd : Int) (pause_flag : Int)
    (w : World) :
    ∃ w1, playerSetPause X (k + 7) fd pause_flag w = some (0, w1) ∧ Worked X w w1 := by
  obtain ⟨w1, h1, h2, _, _⟩ := playerPause_worked X k fd w
  unfold playerSetPause
  cases hs : w.pc.state
  · exact ⟨w, rfl, worked_refl X w⟩
  · by_cases hf : pause_flag = 0
    · exact ⟨w1, by simp [hf, h1], h2⟩
    · exact ⟨w, by simp [hf], worked_refl X w⟩
  · by_cases hf : pause_flag = 0
    · exact ⟨w, by simp [hf], worked_refl X w⟩
    · exact ⟨w1, by simp [hf, h1], h2⟩

/-- From every control block `playerPlay` returns 0; it sets no command flag for
good, and with an inert decoder `state` and `error` are as they were. -/
theorem playerPlay_worked (X : Externals) (k : Nat) (fd : Int) (song : Song) (w : World) :
    ∃ w1, playerPlay X (k + 7) fd song w = some (0, w1) ∧ pending w1.pc ≤ pending w.pc
      ∧ (Inert X → w1.pc.state = w.pc.state ∧ w1.pc.error = w.pc.error) := by
  obtain ⟨ws, s1, _, _, s4⟩ := playerStop_worked X k fd w
  refine ⟨{ ws with pc := decode X { resetPlayerMetadata (set_current_song X song ws.pc) with
                                     play := true },
                    trace := ws.trace ++ [Event.decode, Event.wakeup_main_task] }, ?_, ?_, ?_⟩
  · unfold playerPlay
    rw [s1]
    dsimp only
    rw [if_neg (by decide)]
    rw [play_loop X (k + 6) _ rfl]
  · have h := s4.2.2.1
    have h2 : pending (decode X { resetPlayerMetadata (set_current_song X song ws.pc) with
        play := true }) ≤ pending ws.pc := by
      rw [resetPlayerMetadata_eq]
      simp [pending, decode, set_current_song]
    exact Nat.le_trans h2 h
  · intro hX
    have h := s4.2.2.2.1 hX
    have h2 := hX { resetPlayerMetadata (set_current_song X song ws.pc) with play := true }
    rw [resetPlayerMetadata_eq] at h2
    rw [resetPlayerMetadata_eq]
    exact ⟨h2.1.trans h.1, h2.2.trans h.2⟩

/-! ## Seek from any control block -/

/-- From every control block `playerSeek` returns; it sets no command flag for
good, with an inert decoder `state` and `error` are as they were, and with
`state` not Stopped the result is 0 and the url of the snapshot is that of the
song, the snapshot being left as it was when it had that url already. -/
theorem playerSeek_worked (X : Externals) (k : Nat) (fd : Int) (song : Song)
    (seek_time : CFloat) (w : World) :
    ∃ r w1, playerSeek X (k + 7) fd song seek_time w = some (r, w1)
      ∧ pending w1.pc ≤ pending w.pc
      ∧ (Inert X → w1.pc.state = w.pc.state ∧ w1.pc.error = w.pc.error)
      ∧ (w.pc.state ≠ PlayerState.PLAYER_STATE_STOP →
          r = 0 ∧ w1.pc.utf8url = X.get_song_url song
            ∧ (w.pc.utf8url = X.get_song_url song →
                w1.pc.utf8url = w.pc.utf8url ∧ w1.pc.fileTime = w.pc.fileTime
                  ∧ w1.pc.fileMetadataChunk = w.pc.fileMetadataChunk)) := by
  unfold playerSeek
  by_cases hs : w.pc.state = PlayerState.PLAYER_STATE_STOP
  · rw [if_pos hs]
    exact ⟨-1, _, rfl, Nat.le_refl _, fun _ => ⟨rfl, rfl⟩, fun h => absurd hs h⟩
  · rw [if_neg hs]
    dsimp only
    have hpc : ∀ pc1 : PlayerControl,
        pc1 = (if w.pc.utf8url ≠ X.get_song_url song then set_current_song X song w.pc
          else w.pc) →
        pending pc1 = pending w.pc ∧ pc1.state = w.pc.state ∧ pc1.error = w.pc.error
          ∧ pc1.utf8url = X.get_song_url song
          ∧ (w.pc.utf8url = X.get_song_url song → pc1 = w.pc) := by
      intro pc1 h
      by_cases hu : w.pc.utf8url ≠ X.get_song_url song
      · rw [if_pos hu] at h
        subst h
        exact ⟨rfl, rfl, rfl, rfl, fun h => absurd h hu⟩
      · rw [if_neg hu] at h
        subst h
        exact ⟨rfl, rfl, rfl, not_not.mp hu, fun _ => rfl⟩
    generalize hg : (if w.pc.utf8url ≠ X.get_song_url song then set_current_song X song w.pc
      else w.pc) = pc1
    obtain ⟨p1, p2, p3, p4, p5⟩ := hpc pc1 hg.symm
    by_cases he : pc1.error = PlayerError.PLAYER_ERROR_NOERROR
    · rw [if_pos he]
      obtain ⟨w0, w1, h1, _, _, _, h5⟩ := submit_seek X k
        { w with pc := { resetPlayerMetadata pc1 with seekWhere := seek_time } }
      rw [h1]
      have e1 : pending { resetPlayerMetadata pc1 with seekWhere := seek_time } = pending pc1 := by
        rw [resetPlayerMetadata_eq]
        rfl
      refine ⟨0, w1, rfl, ?_, ?_, fun _ => ⟨rfl, ?_, ?_⟩⟩
      · have := h5.2.2.1
        exact Nat.le_trans this (Nat.le_of_eq (e1.trans p1))
      · intro hX
        obtain ⟨a, b⟩ := h5.2.2.2.1 hX
        rw [resetPlayerMetadata_eq] at a b
        exact ⟨a.trans p2, b.trans p3⟩
      · have := h5.1.2.1
        rw [resetPlayerMetadata_eq] at this
        exact this.trans p4
      · intro hu
        obtain ⟨_, a, b, c, _⟩ := h5.1
        rw [resetPlayerMetadata_eq] at a b c
        rw [p5 hu] at a b c
        exact ⟨a, b, c⟩
    · rw [if_neg he]
      refine ⟨0, _, rfl, Nat.le_of_eq p1, fun _ => ⟨p2, p3⟩, fun _ => ⟨rfl, p4, ?_⟩⟩
      intro hu
      show pc1.utf8url = _ ∧ pc1.fileTime = _ ∧ pc1.fileMetadataChunk = _
      rw [p5 hu]
      exact ⟨rfl, rfl, rfl⟩

/-! ## Flags stay clear; failed calls -/

/-- All flags are clear exactly when none is pending. -/
theorem allClear_iff (pc : PlayerControl) : allClear pc = true ↔ pending pc = 0 := by
  unfold allClear pending
  cases pc.play <;> cases pc.stop <;> cases pc.seek <;> cases pc.pause <;>
    cases pc.closeAudio <;> cases pc.lockQueue <;> cases pc.unlockQueue <;> simp

/-- C12: in a control block with all seven command flags clear, each of Play,
Stop, Pause, SetPause, Seek, QueueSong, LockQueue, UnlockQueue and CloseAudio
returns (fuel 7 is enough) with all seven flags clear again. -/
theorem allClear_preserved (X : Externals) (k : Nat) (fd : Int) (song : Song)
    (seek_time : CFloat) (pause_flag : Int) (w : World) (h : allClear w.pc = true) :
    (∃ w1, playerPlay X (k + 7) fd song w = some (0, w1) ∧ allClear w1.pc = true)
      ∧ (∃ w1, playerStop X (k + 7) fd w = some (0, w1) ∧ allClear w1.pc = true)
      ∧ (∃ w1, playerPause X (k + 7) fd w = some (0, w1) ∧ allClear w1.pc = true)
      ∧ (∃ w1, playerSetPause X (k + 7) fd pause_flag w = some (0, w1) ∧ allClear w1.pc = true)
      ∧ (∃ r w1, playerSeek X (k + 7) fd song seek_time w = some (r, w1)
          ∧ allClear w1.pc = true)
      ∧ allClear (queueSong X song w).2.pc = true
      ∧ (∃ w1, playerQueueLock X (k + 7) w = some w1 ∧ allClear w1.pc = true)
      ∧ (∃ w1, playerQueueUnlock X (k + 7) w = some w1 ∧ allClear w1.pc = true)
      ∧ (∃ w1, playerCloseAudio X (k + 7) w = some w1 ∧ allClear w1.pc = true) := by
  have h0 : pending w.pc = 0 := (allClear_iff _).1 h
  have fin : ∀ v : World, pending v.pc ≤ pending w.pc → allClear v.pc = true :=
    fun v hv => (allClear_iff _).2 (by omega)
  refine ⟨?_, ?_, ?_, ?_, ?_, ?_, ?_, ?_, ?_⟩
  · obtain ⟨w1, h1, h2, _⟩ := playerPlay_worked X k fd song w
    exact ⟨w1, h1, fin w1 h2⟩
  · obtain ⟨w1, h1, _, _, h4⟩ := playerStop_worked X k fd w
    exact ⟨w1, h1, fin w1 h4.2.2.1⟩
  · obtain ⟨w1, h1, h2, _⟩ := playerPause_worked X k fd w
    exact ⟨w1, h1, fin w1 h2.2.2.1⟩
  · obtain ⟨w1, h1, h2⟩ := playerSetPause_worked X k fd pause_flag w
    exact ⟨w1, h1, fin w1 h2.2.2.1⟩
  · obtain ⟨r, w1, h1, h2, _⟩ := playerSeek_worked X k fd song seek_time w
    exact ⟨r, w1, h1, fin w1 h2⟩
  · apply fin
    unfold queueSong
    split_ifs
    · exact Nat.le_refl _
    · exact Nat.le_refl _
  · obtain ⟨w1, h1, _, h3⟩ := playerQueueLock_worked X k w
    exact ⟨w1, h1, fin w1 h3.2.2.1⟩
  · obtain ⟨w1, h1, _, h3⟩ := playerQueueUnlock_worked X k w
    exact ⟨w1, h1, fin w1 h3.2.2.1⟩
  · obtain ⟨w0, w1, h1, _, _, _, _, _, _, _, _, h10, _⟩ := playerCloseAudio_worked X k w
    exact ⟨w1, h1, fin w1 h10⟩

/-- C12, witness of `allClear_preserved`: stopping a playing player whose flags
are clear. -/
theorem allClear_preserved_witness :
    allClear (worldOf playingControl).pc = true
      ∧ ∃ w1, playerStop sampleExternals 7 2 (worldOf playingControl) = some (0, w1)
          ∧ allClear w1.pc = true :=
  ⟨rfl, (allClear_preserved sampleExternals 0 2 songA { bits := 0 } 1
    (worldOf playingControl) rfl).2.1⟩

/-- C13: a `playerSeek` that fails because `state` is Stopped and a `queueSong`
that fails because the queue slot is Full leave the control block, the error
code and `erroredUrl` included, exactly as it was. -/
theorem failed_call_keeps_control (X : Externals) (fuel : Nat) (fd : Int) (song : Song)
    (seek_time : CFloat) (w : World) :
    (w.pc.state = PlayerState.PLAYER_STATE_STOP →
        ∃ w1, playerSeek X fuel fd song seek_time w = some (-1, w1)
          ∧ w1.pc.error = w.pc.error ∧ w1.pc.erroredUrl = w.pc.erroredUrl ∧ w1.pc = w.pc)
      ∧ (w.pc.queueState = QueueState.PLAYER_QUEUE_FULL →
          (queueSong X song w).1 = -1
            ∧ (queueSong X song w).2.pc.error = w.pc.error
            ∧ (queueSong X song w).2.pc.erroredUrl = w.pc.erroredUrl
            ∧ (queueSong X song w).2 = w) := by
  constructor
  · intro h
    unfold playerSeek
    rw [if_pos h]
    exact ⟨_, rfl, rfl, rfl, rfl⟩
  · intro h
    unfold queueSong
    rw [if_neg (by rw [h]; decide)]
    exact ⟨rfl, rfl, rfl, rfl⟩

/-- C13, witness of `failed_call_keeps_control`: a second `queueSong` on a slot
that the first one filled, with an error latched. -/
theorem failed_call_keeps_control_witness :
    (queueSong sampleExternals songB
        (worldOf { idleControl with queueState := QueueState.PLAYER_QUEUE_FULL,
                                    error := PlayerError.PLAYER_ERROR_FILE,
                                    erroredUrl := "a.ogg".toList })).2.pc.error
      = PlayerError.PLAYER_ERROR_FILE :=
  ((failed_call_keeps_control sampleExternals 0 2 songB { bits := 0 }
    (worldOf { idleControl with queueState := QueueState.PLAYER_QUEUE_FULL,
                                error := PlayerError.PLAYER_ERROR_FILE,
                                erroredUrl := "a.ogg".toList })).2 rfl).2.1

/-! ## Snapshot, state and error -/

/-- C14, as the source has it: on a Blank queue slot `queueSong` returns 0 and
stores the url, the duration and the tag metadata of the song, through
`set_current_song`, in `utf8url`, `fileTime` and `fileMetadataChunk`, which are
the fields `playerPlay` writes: `player.c` has no other snapshot, so that of
the song loaded by Play is overwritten.  `queueState` becomes Full, and no
other field of the control block changes. -/
theorem queueSong_overwrites (X : Externals) (song : Song) (w : World)
    (h : w.pc.queueState = QueueState.PLAYER_QUEUE_BLANK) :
    (queueSong X song w).1 = 0
      ∧ (queueSong X song w).2.pc.utf8url = X.get_song_url song
      ∧ (queueSong X song w).2.pc.fileTime = (match song.tag with
          | some t => t.time
          | none => 0)
      ∧ (queueSong X song w).2.pc.fileMetadataChunk
          = X.copyMpdTagToMetadataChunk song.tag w.pc.fileMetadataChunk
      ∧ (queueSong X song w).2.pc.queueState = QueueState.PLAYER_QUEUE_FULL
      ∧ { (queueSong X song w).2.pc with
            utf8url := w.pc.utf8url, fileTime := w.pc.fileTime,
            fileMetadataChunk := w.pc.fileMetadataChunk,
            queueState := w.pc.queueState } = w.pc := by
  unfold queueSong
  rw [if_pos h]
  exact ⟨rfl, rfl, rfl, rfl, rfl, rfl⟩

/-- C14, witness of `queueSong_overwrites` on the start-up control block. -/
theorem queueSong_overwrites_witness :
    (queueSong sampleExternals songB (worldOf idleControl)).1 = 0
      ∧ (queueSong sampleExternals songB (worldOf idleControl)).2.pc.utf8url = "b.ogg".toList :=
  ⟨(queueSong_overwrites sampleExternals songB (worldOf idleControl) rfl).1,
   (queueSong_overwrites sampleExternals songB (worldOf idleControl) rfl).2.1⟩

/-- C14, as the spec has it, fails: after `playerPlay` of one song, a successful
`queueSong` of another song leaves the url of that other song where
`playerPlay` had put the url of the first. -/
theorem queueSong_snapshot_counterexample :
    ∃ w1, playerPlay sampleExternals 7 2 songA (worldOf idleControl) = some (0, w1)
      ∧ w1.pc.utf8url = "a.ogg".toList
      ∧ w1.pc.fileTime = 30
      ∧ (queueSong sampleExternals songB w1).1 = 0
      ∧ (queueSong sampleExternals songB w1).2.pc.utf8url = "b.ogg".toList
      ∧ (queueSong sampleExternals songB w1).2.pc.fileTime = 0
      ∧ (queueSong sampleExternals songB w1).2.pc.utf8url ≠ w1.pc.utf8url :=
  ⟨_, rfl, rfl, rfl, rfl, rfl, rfl, by decide⟩

/-- C15: with a decoder that writes neither `state` nor `error`, each of Play,
Stop, Pause, SetPause, Seek, QueueSong, LockQueue, UnlockQueue, CloseAudio and
the setters returns (fuel 7 is enough) with `state` and `error` as they were at
the call, and ClearError leaves `state` as it was and `error` None: no
control-thread code of `player.c` writes `state`, and none latches an error. -/
theorem control_side_keeps_state (X : Externals) (hX : Inert X) (k : Nat) (fd : Int)
    (song : Song) (seek_time : CFloat) (pause_flag : Int) (queueState : QueueState)
    (crossFade : CFloat) (volume : Int) (w : World) :
    (∃ w1, playerPlay X (k + 7) fd song w = some (0, w1)
        ∧ w1.pc.state = w.pc.state ∧ w1.pc.error = w.pc.error)
      ∧ (∃ w1, playerStop X (k + 7) fd w = some (0, w1)
          ∧ w1.pc.state = w.pc.state ∧ w1.pc.error = w.pc.error)
      ∧ (∃ w1, playerPause X (k + 7) fd w = some (0, w1)
          ∧ w1.pc.state = w.pc.state ∧ w1.pc.error = w.pc.error)
      ∧ (∃ w1, playerSetPause X (k + 7) fd pause_flag w = some (0, w1)
          ∧ w1.pc.state = w.pc.state ∧ w1.pc.error = w.pc.error)
      ∧ (∃ r w1, playerSeek X (k + 7) fd song seek_time w = some (r, w1)
          ∧ w1.pc.state = w.pc.state ∧ w1.pc.error = w.pc.error)
      ∧ ((queueSong X song w).2.pc.state = w.pc.state
          ∧ (queueSong X song w).2.pc.error = w.pc.error)
      ∧ (∃ w1, playerQueueLock X (k + 7) w = some w1
          ∧ w1.pc.state = w.pc.state ∧ w1.pc.error = w.pc.error)
      ∧ (∃ w1, playerQueueUnlock X (k + 7) w = some w1
          ∧ w1.pc.state = w.pc.state ∧ w1.pc.error = w.pc.error)
      ∧ (∃ w1, playerCloseAudio X (k + 7) w = some w1
          ∧ w1.pc.state = w.pc.state ∧ w1.pc.error = w.pc.error)
      ∧ ((clearPlayerError w).pc.state = w.pc.state
          ∧ (clearPlayerError w).pc.error = PlayerError.PLAYER_ERROR_NOERROR)
      ∧ ((setQueueState queueState w).pc.state = w.pc.state
          ∧ (setQueueState queueState w).pc.error = w.pc.error)
      ∧ ((setPlayerCrossFade crossFade w).pc.state = w.pc.state
          ∧ (setPlayerCrossFade crossFade w).pc.error = w.pc.error)
      ∧ ((setPlayerSoftwareVolume volume w).pc.state = w.pc.state
          ∧ (setPlayerSoftwareVolume volume w).pc.error = w.pc.error) := by
  refine ⟨?_, ?_, ?_, ?_, ?_, ?_, ?_, ?_, ?_, ⟨rfl, rfl⟩, ⟨rfl, rfl⟩, ⟨rfl, rfl⟩, ⟨rfl, rfl⟩⟩
  · obtain ⟨w1, h1, _, h3⟩ := playerPlay_worked X k fd song w
    exact ⟨w1, h1, h3 hX⟩
  · obtain ⟨w1, h1, _, _, h4⟩ := playerStop_worked X k fd w
    exact ⟨w1, h1, h4.2.2.2.1 hX⟩
  · obtain ⟨w1, h1, h2, _⟩ := playerPause_worked X k fd w
    exact ⟨w1, h1, h2.2.2.2.1 hX⟩
  · obtain ⟨w1, h1, h2⟩ := playerSetPause_worked X k fd pause_flag w
    exact ⟨w1, h1, h2.2.2.2.1 hX⟩
  · obtain ⟨r, w1, h1, _, h3, _⟩ := playerSeek_worked X k fd song seek_time w
    exact ⟨r, w1, h1, h3 hX⟩
  · unfold queueSong
    split_ifs
    · exact ⟨rfl, rfl⟩
    · exact ⟨rfl, rfl⟩
  · obtain ⟨w1, h1, _, h3⟩ := playerQueueLock_worked X k w
    exact ⟨w1, h1, h3.2.2.2.1 hX⟩
  · obtain ⟨w1, h1, _, h3⟩ := playerQueueUnlock_worked X k w
    exact ⟨w1, h1, h3.2.2.2.1 hX⟩
  · obtain ⟨w0, w1, h1, _, _, _, _, _, _, _, _, _, h11, _⟩ := playerCloseAudio_worked X k w
    exact ⟨w1, h1, h11 hX⟩

/-- C15, witness of `control_side_keeps_state`: with a decoder that writes
nothing, Stop on a playing player with a latched error returns with `state`
Playing and the error as it was. -/
theorem control_side_keeps_state_witness :
    Inert inertExternals
      ∧ ∃ w1, playerStop inertExternals 7 2
            (worldOf { playingControl with error := PlayerError.PLAYER_ERROR_AUDIO })
          = some (0, w1)
        ∧ w1.pc.state = PlayerState.PLAYER_STATE_PLAY
        ∧ w1.pc.error = PlayerError.PLAYER_ERROR_AUDIO :=
  ⟨fun _ => ⟨rfl, rfl⟩,
    (control_side_keeps_state inertExternals (fun _ => ⟨rfl, rfl⟩) 0 2 songA { bits := 0 } 1
      QueueState.PLAYER_QUEUE_FULL { bits := 0 } 0
      (worldOf { playingControl with error := PlayerError.PLAYER_ERROR_AUDIO })).2.1⟩

/-- C16: after `clearPlayerError`, `getPlayerError` returns None and
`getPlayerErrorStr` returns `NULL`; `clearPlayerError` writes the error code
and nothing else. -/
theorem clearPlayerError_clears (X : Externals) (w : World) :
    getPlayerError (clearPlayerError w) = PlayerError.PLAYER_ERROR_NOERROR
      ∧ getPlayerErrorStr X (clearPlayerError w) = none
      ∧ { (clearPlayerError w).pc with error := w.pc.error } = w.pc
      ∧ (clearPlayerError w).song = w.song ∧ (clearPlayerError w).prev = w.prev
      ∧ (clearPlayerError w).trace = w.trace := by
  refine ⟨rfl, ?_, rfl, rfl, rfl, rfl⟩
  simp [getPlayerErrorStr, clearPlayerError]

/-- C17: with `state` not Stopped, `playerSeek` returns 0 (fuel 7 is enough) with
`utf8url` the url of the requested song; when `utf8url` was that url already,
`utf8url`, `fileTime` and `fileMetadataChunk` are what they were. -/
theorem playerSeek_snapshot (X : Externals) (k : Nat) (fd : Int) (song : Song)
    (seek_time : CFloat) (w : World) (h : w.pc.state ≠ PlayerState.PLAYER_STATE_STOP) :
    ∃ w1, playerSeek X (k + 7) fd song seek_time w = some (0, w1)
      ∧ w1.pc.utf8url = X.get_song_url song
      ∧ (w.pc.utf8url = X.get_song_url song →
          w1.pc.utf8url = w.pc.utf8url ∧ w1.pc.fileTime = w.pc.fileTime
            ∧ w1.pc.fileMetadataChunk = w.pc.fileMetadataChunk) := by
  obtain ⟨r, w1, h1, _, _, h4⟩ := playerSeek_worked X k fd song seek_time w
  obtain ⟨hr, hu, hk⟩ := h4 h
  subst hr
  exact ⟨w1, h1, hu, hk⟩

/-- C17, witness of `playerSeek_snapshot`: a seek in another song than the one
loaded, on a playing player. -/
theorem playerSeek_snapshot_witness :
    ∃ w1, playerSeek sampleExternals 7 2 songB { bits := 1106247680 } (worldOf playingControl)
          = some (0, w1)
      ∧ w1.pc.utf8url = "b.ogg".toList :=
  (playerSeek_snapshot sampleExternals 0 2 songB { bits := 1106247680 } (worldOf playingControl)
    (by decide)).imp fun _ h => ⟨h.1, h.2.1⟩

/-! ## Queue lock with nothing pending -/

/-- With all flags clear, the lock command is served by the first iteration of
the worker. -/
theorem lock_clear (X : Externals) (k : Nat) (w : World) (h : allClear w.pc = true) :
    wakeup_while X (fun pc => pc.lockQueue) (k + 1)
        { w with pc := { w.pc with lockQueue := true } }
      = some { w with pc := { w.pc with queueLockState := QueueLockState.PLAYER_QUEUE_LOCKED },
                      trace := w.trace ++ [Event.wakeup_main_task] } := by
  obtain ⟨pc, sg, pv, tr⟩ := w
  obtain ⟨play, stop, seek, pause, closeAudio, lockQueue, unlockQueue, state, qs, qls, ms, e,
    eu, u8, cu, ft, fmc, mc, sw, et, tt, tpt, br, sr, b, c, cf, sv⟩ := pc
  simp [allClear] at h
  obtain ⟨⟨⟨⟨⟨⟨h1, h2⟩, h3⟩, h4⟩, h5⟩, h6⟩, h7⟩ := h
  subst h1 h2 h3 h4 h5 h6 h7
  simp [wakeup_while, player_task]

/-- With all flags clear, the unlock command is served by the first iteration of
the worker. -/
theorem unlock_clear (X : Externals) (k : Nat) (w : World) (h : allClear w.pc = true) :
    wakeup_while X (fun pc => pc.unlockQueue) (k + 1)
        { w with pc := { w.pc with unlockQueue := true } }
      = some { w with pc := { w.pc with queueLockState := QueueLockState.PLAYER_QUEUE_UNLOCKED },
                      trace := w.trace ++ [Event.wakeup_main_task] } := by
  obtain ⟨pc, sg, pv, tr⟩ := w
  obtain ⟨play, stop, seek, pause, closeAudio, lockQueue, unlockQueue, state, qs, qls, ms, e,
    eu, u8, cu, ft, fmc, mc, sw, et, tt, tpt, br, sr, b, c, cf, sv⟩ := pc
  simp [allClear] at h
  obtain ⟨⟨⟨⟨⟨⟨h1, h2⟩, h3⟩, h4⟩, h5⟩, h6⟩, h7⟩ := h
  subst h1 h2 h3 h4 h5 h6 h7
  simp [wakeup_while, player_task]

/-- With all flags clear `playerQueueLock` writes `queueLockState` only. -/
theorem playerQueueLock_clear (X : Externals) (k : Nat) (w : World)
    (h : allClear w.pc = true) :
    ∃ w1, playerQueueLock X (k + 7) w = some w1
      ∧ w1.pc = { w.pc with queueLockState := QueueLockState.PLAYER_QUEUE_LOCKED } := by
  unfold playerQueueLock
  by_cases hl : w.pc.queueLockState = QueueLockState.PLAYER_QUEUE_UNLOCKED
  · rw [if_pos hl, lock_clear X (k + 6) w h]
    exact ⟨_, rfl, rfl⟩
  · rw [if_neg hl]
    refine ⟨w, rfl, ?_⟩
    have hq : w.pc.queueLockState = QueueLockState.PLAYER_QUEUE_LOCKED := by
      cases hq : w.pc.queueLockState
      · exact absurd hq hl
      · rfl
    rw [← hq]

/-- With all flags clear `playerQueueUnlock` writes `queueLockState` only. -/
theorem playerQueueUnlock_clear (X : Externals) (k : Nat) (w : World)
    (h : allClear w.pc = true) :
    ∃ w1, playerQueueUnlock X (k + 7) w = some w1
      ∧ w1.pc = { w.pc with queueLockState := QueueLockState.PLAYER_QUEUE_UNLOCKED } := by
  unfold playerQueueUnlock
  by_cases hl : w.pc.queueLockState = QueueLockState.PLAYER_QUEUE_LOCKED
  · rw [if_pos hl, unlock_clear X (k + 6) w h]
    exact ⟨_, rfl, rfl⟩
  · rw [if_neg hl]
    refine ⟨w, rfl, ?_⟩
    have hq : w.pc.queueLockState = QueueLockState.PLAYER_QUEUE_UNLOCKED := by
      cases hq : w.pc.queueLockState
      · rfl
      · exact absurd hq hl
    rw [← hq]

/-! ## Volume -/

/-- C20: `setPlayerSoftwareVolume` stores the volume clamped to the range from 0
to 1000, that is the volume itself when it lies in that range, and writes no
other field. -/
theorem setPlayerSoftwareVolume_clamps (volume : Int) (w : World) :
    (setPlayerSoftwareVolume volume w).pc.softwareVolume = min 1000 (max 0 volume)
      ∧ 0 ≤ (setPlayerSoftwareVolume volume w).pc.softwareVolume
      ∧ (setPlayerSoftwareVolume volume w).pc.softwareVolume ≤ 1000
      ∧ (0 ≤ volume → volume ≤ 1000 →
          (setPlayerSoftwareVolume volume w).pc.softwareVolume = volume)
      ∧ { (setPlayerSoftwareVolume volume w).pc with softwareVolume := w.pc.softwareVolume }
          = w.pc
      ∧ (setPlayerSoftwareVolume volume w).song = w.song
      ∧ (setPlayerSoftwareVolume volume w).prev = w.prev
      ∧ (setPlayerSoftwareVolume volume w).trace = w.trace := by
  have key : (setPlayerSoftwareVolume volume w).pc.softwareVolume
      = if volume > 1000 then 1000 else (if volume < 0 then 0 else volume) := rfl
  refine ⟨?_, ?_, ?_, ?_, rfl, rfl, rfl, rfl⟩
  · rw [key]
    split_ifs <;> omega
  · rw [key]
    split_ifs <;> omega
  · rw [key]
    split_ifs <;> omega
  · intro h0 h1
    rw [key]
    split_ifs <;> omega

/-- C20, witness of `setPlayerSoftwareVolume_clamps` at a volume in range. -/
theorem setPlayerSoftwareVolume_clamps_witness :
    (setPlayerSoftwareVolume 250 (worldOf idleControl)).pc.softwareVolume = 250 :=
  (setPlayerSoftwareVolume_clamps 250 (worldOf idleControl)).2.2.2.1 (by decide) (by decide)

/-! ## Between two calls of the control thread -/

/-- A loop that ends within some fuel ends in the same world with more. -/
theorem wakeup_while_mono (X : Externals) (flag : PlayerControl → Bool) (m : Nat) :
    ∀ (n : Nat) (w w1 : World), wakeup_while X flag n w = some w1 →
      wakeup_while X flag (n + m) w = some w1 := by
  intro n
  induction n with
  | zero => intro w w1 h; simp [wakeup_while] at h
  | succ n ih =>
    intro w w1 h
    rw [Nat.succ_add]
    simp only [wakeup_while] at h ⊢
    by_cases hf : flag (player_task X w).pc = true
    · rw [if_pos hf] at h ⊢
      exact ih _ _ h
    · rw [if_neg hf] at h ⊢
      exact h

theorem playerQueueLock_mono (X : Externals) (m n : Nat) (w w1 : World)
    (h : playerQueueLock X n w = some w1) : playerQueueLock X (n + m) w = some w1 := by
  unfold playerQueueLock at h ⊢
  split_ifs at h ⊢
  · exact wakeup_while_mono X _ m _ _ _ h
  · exact h

theorem playerQueueUnlock_mono (X : Externals) (m n : Nat) (w w1 : World)
    (h : playerQueueUnlock X n w = some w1) : playerQueueUnlock X (n + m) w = some w1 := by
  unfold playerQueueUnlock at h ⊢
  split_ifs at h ⊢
  · exact wakeup_while_mono X _ m _ _ _ h
  · exact h

theorem playerStop_mono (X : Externals) (m n : Nat) (fd : Int) (w : World) (r : Int × World)
    (h : playerStop X n fd w = some r) : playerStop X (n + m) fd w = some r := by
  unfold playerStop at h ⊢
  by_cases hs : w.pc.state ≠ PlayerState.PLAYER_STATE_STOP
  · rw [if_pos hs] at h ⊢
    cases hl : wakeup_while X (fun pc => pc.stop) n { w with pc := { w.pc with stop := true } } with
    | none => rw [hl] at h; cases h
    | some wa =>
      rw [hl] at h
      rw [wakeup_while_mono X _ m _ _ _ hl]
      dsimp only at h ⊢
      cases hu : playerQueueUnlock X n
          { wa with pc := { wa.pc with queueState := QueueState.PLAYER_QUEUE_BLANK } } with
      | none => rw [hu] at h; cases h
      | some wb =>
        rw [hu] at h
        rw [playerQueueUnlock_mono X m _ _ _ hu]
        exact h
  · rw [if_neg hs] at h ⊢
    dsimp only at h ⊢
    cases hu : playerQueueUnlock X n
        { w with pc := { w.pc with queueState := QueueState.PLAYER_QUEUE_BLANK } } with
    | none => rw [hu] at h; cases h
    | some wb =>
      rw [hu] at h
      rw [playerQueueUnlock_mono X m _ _ _ hu]
      exact h

theorem playerPause_mono (X : Externals) (m n : Nat) (fd : Int) (w : World) (r : Int × World)
    (h : playerPause X n fd w = some r) : playerPause X (n + m) fd w = some r := by
  unfold playerPause at h ⊢
  by_cases hs : w.pc.state ≠ PlayerState.PLAYER_STATE_STOP
  · rw [if_pos hs] at h ⊢
    cases hl : wakeup_while X (fun pc => pc.pause) n
        { w with pc := { w.pc with pause := true } } with
    | none => rw [hl] at h; cases h
    | some wa =>
      rw [hl] at h
      rw [wakeup_while_mono X _ m _ _ _ hl]
      exact h
  · rw [if_neg hs] at h ⊢
    exact h

theorem playerSetPause_mono (X : Externals) (m n : Nat) (fd : Int) (pause_flag : Int)
    (w : World) (r : Int × World)
    (h : playerSetPause X n fd pause_flag w = some r) :
    playerSetPause X (n + m) fd pause_flag w = some r := by
  unfold playerSetPause at h ⊢
  cases hp : playerPause X n fd w with
  | none =>
    rw [hp] at h
    cases hs : w.pc.state <;> rw [hs] at h <;> dsimp only at h ⊢
    · exact h
    · by_cases hf : pause_flag = 0
      · rw [if_pos hf] at h; cases h
      · rw [if_neg hf] at h ⊢; exact h
    · by_cases hf : pause_flag ≠ 0
      · rw [if_pos hf] at h; cases h
      · rw [if_neg hf] at h ⊢; exact h
  | some q =>
    rw [hp] at h
    rw [playerPause_mono X m _ _ _ _ hp]
    exact h

theorem playerSeek_mono (X : Externals) (m n : Nat) (fd : Int) (song : Song)
    (seek_time : CFloat) (w : World) (r : Int × World)
    (h : playerSeek X n fd song seek_time w = some r) :
    playerSeek X (n + m) fd song seek_time w = some r := by
  unfold playerSeek at h ⊢
  by_cases hs : w.pc.state = PlayerState.PLAYER_STATE_STOP
  · rw [if_pos hs] at h ⊢
    exact h
  · rw [if_neg hs] at h ⊢
    dsimp only at h ⊢
    split_ifs at h ⊢ with hu he
    · revert h
      generalize hl : wakeup_while X (fun pc => pc.seek) n _ = o
      intro h
      cases o with
      | none => cases h
      | some wa => rw [wakeup_while_mono X _ m _ _ _ hl]; exact h
    · exact h
    · revert h
      generalize hl : wakeup_while X (fun pc => pc.seek) n _ = o
      intro h
      cases o with
      | none => cases h
      | some wa => rw [wakeup_while_mono X _ m _ _ _ hl]; exact h
    · exact h

theorem playerPlay_mono (X : Externals) (m n : Nat) (fd : Int) (song : Song) (w : World)
    (r : Int × World) (h : playerPlay X n fd song w = some r) :
    playerPlay X (n + m) fd song w = some r := by
  unfold playerPlay at h ⊢
  cases hs : playerStop X n fd w with
  | none => rw [hs] at h; cases h
  | some q =>
    obtain ⟨r0, ws⟩ := q
    rw [hs] at h
    rw [playerStop_mono X m _ _ _ _ hs]
    dsimp only at h ⊢
    split_ifs at h ⊢
    · exact h
    · revert h
      generalize hl : wakeup_while X (fun pc => pc.play) n _ = o
      intro h
      cases o with
      | none => cases h
      | some wa => rw [wakeup_while_mono X _ m _ _ _ hl]; exact h

theorem playerCloseAudio_mono (X : Externals) (m n : Nat) (w w1 : World)
    (h : playerCloseAudio X n w = some w1) : playerCloseAudio X (n + m) w = some w1 := by
  unfold playerCloseAudio at h ⊢
  cases hs : playerStop X n 2 w with
  | none => rw [hs] at h; cases h
  | some q =>
    obtain ⟨r0, ws⟩ := q
    rw [hs] at h
    rw [playerStop_mono X m _ _ _ _ hs]
    dsimp only at h ⊢
    split_ifs at h ⊢
    · exact h
    · exact wakeup_while_mono X _ m _ _ _ h

theorem playerWait_mono (X : Externals) (m n : Nat) (fd : Int) (w : World) (r : Int × World)
    (h : playerWait X n fd w = some r) : playerWait X (n + m) fd w = some r := by
  unfold playerWait at h ⊢
  cases hs : playerStop X n fd w with
  | none => rw [hs] at h; cases h
  | some q =>
    obtain ⟨r0, ws⟩ := q
    rw [hs] at h
    rw [playerStop_mono X m _ _ _ _ hs]
    dsimp only at h ⊢
    split_ifs at h ⊢
    · exact h
    · cases hc : playerCloseAudio X n ws with
      | none => rw [hc] at h; cases h
      | some wc =>
        rw [hc] at h
        rw [playerCloseAudio_mono X m _ _ _ hc]
        exact h

/-- From every control block `playerCloseAudio` returns, the worker having run
`decode()` only if `play` was set at the call. -/
theorem playerCloseAudio_quiet (X : Externals) (k : Nat) (w : World) :
    ∃ w1, playerCloseAudio X (k + 7) w = some w1 ∧ Quiet w w1 := by
  obtain ⟨ws, s1, _, _, s4⟩ := playerStop_worked X k 2 w
  obtain ⟨w0, w1, c1, _, _, _, _, c6, _⟩ := submit_closeAudio X k ws
  refine ⟨w1, ?_, quiet_trans s4.2.1 c6⟩
  unfold playerCloseAudio
  rw [s1]
  dsimp only
  rw [if_neg (by decide)]
  exact c1

/-- From every control block `playerWait` returns 0, on the iteration of the
worker that calls `closeAudioDevice()`. -/
theorem playerWait_worked (X : Externals) (k : Nat) (fd : Int) (w : World) :
    ∃ w0 w1, playerWait X (k + 7) fd w = some (0, w1)
      ∧ w1 = player_task X w0 ∧ w0.pc.closeAudio = true ∧ w0.pc.stop = false
      ∧ w1.trace = w0.trace ++ [Event.closeAudioDevice, Event.wakeup_main_task]
      ∧ w1.pc.closeAudio = false
      ∧ w1.pc.queueState = QueueState.PLAYER_QUEUE_BLANK
      ∧ w1.pc.queueLockState = QueueLockState.PLAYER_QUEUE_UNLOCKED
      ∧ (w.pc.closeAudio = false → closeCount w0 = closeCount w)
      ∧ pending w1.pc ≤ pending w.pc ∧ Quiet w w1 := by
  obtain ⟨ws, s1, _, _, s4⟩ := playerStop_worked X k fd w
  obtain ⟨w0, w1, c1, c2, c3, c4, c5, _, c7, c8, c9, c10, _, c12⟩ :=
    playerCloseAudio_worked X k ws
  obtain ⟨w2, q1, q2⟩ := playerCloseAudio_quiet X k ws
  rw [c1] at q1
  cases q1
  refine ⟨w0, w1, ?_, c2, c3, c4, c5, c7, c8, c9, ?_, Nat.le_trans c10 s4.2.2.1,
    quiet_trans s4.2.1 q2⟩
  · unfold playerWait
    rw [s1]
    dsimp only
    rw [if_neg (by decide), c1]
  · intro hc
    obtain ⟨d1, d2⟩ := s4.2.2.2.2.2 hc
    exact (c12 d1).trans d2

/-- Between two calls of the control thread no command flag is set. -/
theorem reach_allClear (X : Externals) (w : World) (h : Reach X w) : allClear w.pc = true := by
  have fin : ∀ a b : World, allClear a.pc = true → pending b.pc ≤ pending a.pc →
      allClear b.pc = true := by
    intro a b ha hb
    have := (allClear_iff a.pc).1 ha
    exact (allClear_iff b.pc).2 (by omega)
  induction h with
  | start w h1 _ => exact h1
  | @play w w1 fuel fd song r _ h ih =>
    obtain ⟨w2, e, hp, _⟩ := playerPlay_worked X fuel fd song w
    rw [playerPlay_mono X 7 _ _ _ _ _ h] at e
    cases e
    exact fin _ _ ih hp
  | @stop w w1 fuel fd r _ h ih =>
    obtain ⟨w2, e, _, _, hp⟩ := playerStop_worked X fuel fd w
    rw [playerStop_mono X 7 _ _ _ _ h] at e
    cases e
    exact fin _ _ ih hp.2.2.1
  | @pause w w1 fuel fd r _ h ih =>
    obtain ⟨w2, e, hp, _⟩ := playerPause_worked X fuel fd w
    rw [playerPause_mono X 7 _ _ _ _ h] at e
    cases e
    exact fin _ _ ih hp.2.2.1
  | @setPause w w1 fuel fd pause_flag r _ h ih =>
    obtain ⟨w2, e, hp⟩ := playerSetPause_worked X fuel fd pause_flag w
    rw [playerSetPause_mono X 7 _ _ _ _ _ h] at e
    cases e
    exact fin _ _ ih hp.2.2.1
  | @seek w w1 fuel fd song seek_time r _ h ih =>
    obtain ⟨r2, w2, e, hp, _⟩ := playerSeek_worked X fuel fd song seek_time w
    rw [playerSeek_mono X 7 _ _ _ _ _ _ h] at e
    cases e
    exact fin _ _ ih hp
  | @queue w song _ ih =>
    refine fin _ _ ih ?_
    unfold queueSong
    split_ifs
    · exact Nat.le_refl _
    · exact Nat.le_refl _
  | @lock w w1 fuel _ h ih =>
    obtain ⟨w2, e, _, hp⟩ := playerQueueLock_worked X fuel w
    rw [playerQueueLock_mono X 7 _ _ _ h] at e
    cases e
    exact fin _ _ ih hp.2.2.1
  | @unlock w w1 fuel _ h ih =>
    obtain ⟨w2, e, _, hp⟩ := playerQueueUnlock_worked X fuel w
    rw [playerQueueUnlock_mono X 7 _ _ _ h] at e
    cases e
    exact fin _ _ ih hp.2.2.1
  | @closeAudio w w1 fuel _ h ih =>
    obtain ⟨w0, w2, e, _, _, _, _, _, _, _, _, hp, _⟩ := playerCloseAudio_worked X fuel w
    rw [playerCloseAudio_mono X 7 _ _ _ h] at e
    cases e
    exact fin _ _ ih hp
  | @wait w w1 fuel fd r _ h ih =>
    obtain ⟨w0, w2, e, _, _, _, _, _, _, _, _, hp, _⟩ := playerWait_worked X fuel fd w
    rw [playerWait_mono X 7 _ _ _ _ h] at e
    cases e
    exact fin _ _ ih hp
  | @clearError w _ ih => exact ih
  | @setQueue w queueState _ ih => exact ih
  | @setCrossFade w c _ ih => exact ih
  | @setVolume w v _ ih => exact ih
  | @currentSong w _ ih =>
    refine fin _ _ ih ?_
    unfold playerCurrentDecodeSong
    split_ifs
    · rw [resetPlayerMetadata_eq]
      exact Nat.le_refl _
    · exact Nat.le_refl _

/-- C18: in every world the program can be in between two calls of the control
thread, `playerQueueLock` returns with `queueLockState` Locked and
`playerQueueUnlock` with `queueLockState` Unlocked (fuel 7 is enough), each
writing no other field of the control block; a second `playerQueueLock`, or a
second `playerQueueUnlock`, returns the world as it is, and `playerQueueUnlock`
after `playerQueueLock` gives back a control block that was Unlocked. -/
theorem queue_lock_frame (X : Externals) (k : Nat) (w : World) (hr : Reach X w) :
    ∃ w1 w2 w3, playerQueueLock X (k + 7) w = some w1
      ∧ w1.pc.queueLockState = QueueLockState.PLAYER_QUEUE_LOCKED
      ∧ w1.pc = { w.pc with queueLockState := QueueLockState.PLAYER_QUEUE_LOCKED }
      ∧ playerQueueUnlock X (k + 7) w = some w3
      ∧ w3.pc.queueLockState = QueueLockState.PLAYER_QUEUE_UNLOCKED
      ∧ w3.pc = { w.pc with queueLockState := QueueLockState.PLAYER_QUEUE_UNLOCKED }
      ∧ playerQueueLock X (k + 7) w1 = some w1
      ∧ playerQueueUnlock X (k + 7) w3 = some w3
      ∧ playerQueueUnlock X (k + 7) w1 = some w2
      ∧ w2.pc = { w.pc with queueLockState := QueueLockState.PLAYER_QUEUE_UNLOCKED }
      ∧ (w.pc.queueLockState = QueueLockState.PLAYER_QUEUE_UNLOCKED → w2.pc = w.pc) := by
  have h := reach_allClear X w hr
  obtain ⟨w1, a1, a2⟩ := playerQueueLock_clear X k w h
  have hc1 : allClear w1.pc = true := by rw [a2]; exact h
  obtain ⟨w2, b1, b2⟩ := playerQueueUnlock_clear X k w1 hc1
  obtain ⟨w3, c1, c2⟩ := playerQueueUnlock_clear X k w h
  refine ⟨w1, w2, w3, a1, by rw [a2], a2, c1, by rw [c2], c2, ?_, ?_, b1, ?_, ?_⟩
  · unfold playerQueueLock
    rw [if_neg (by rw [a2]; simp)]
  · unfold playerQueueUnlock
    rw [if_neg (by rw [c2]; simp)]
  · rw [b2, a2]
  · intro hu
    rw [b2, a2, ← hu]

/-- C18, witness of `queue_lock_frame`: locking, then unlocking, the queue after
Play of a song at start-up. -/
theorem queue_lock_frame_witness :
    Reach sampleExternals afterPlay
      ∧ ∃ w1 w2 w3, playerQueueLock sampleExternals 7 afterPlay = some w1
          ∧ w1.pc.queueLockState = QueueLockState.PLAYER_QUEUE_LOCKED
          ∧ w1.pc = { afterPlay.pc with queueLockState := QueueLockState.PLAYER_QUEUE_LOCKED }
          ∧ playerQueueUnlock sampleExternals 7 afterPlay = some w3
          ∧ w3.pc.queueLockState = QueueLockState.PLAYER_QUEUE_UNLOCKED
          ∧ w3.pc = { afterPlay.pc with queueLockState := QueueLockState.PLAYER_QUEUE_UNLOCKED }
          ∧ playerQueueLock sampleExternals 7 w1 = some w1
          ∧ playerQueueUnlock sampleExternals 7 w3 = some w3
          ∧ playerQueueUnlock sampleExternals 7 w1 = some w2
          ∧ w2.pc = { afterPlay.pc with queueLockState := QueueLockState.PLAYER_QUEUE_UNLOCKED }
          ∧ (afterPlay.pc.queueLockState = QueueLockState.PLAYER_QUEUE_UNLOCKED →
              w2.pc = afterPlay.pc) :=
  ⟨Reach.play 7 2 songA 0 (Reach.start (worldOf idleControl) rfl rfl) rfl,
    queue_lock_frame sampleExternals 0 afterPlay
      (Reach.play 7 2 songA 0 (Reach.start (worldOf idleControl) rfl rfl) rfl)⟩

/-- C19: in every world the program can be in between two calls of the control
thread, `playerWait` returns 0 (fuel 7 is enough), on the iteration of the
worker that calls `closeAudioDevice()`: that iteration finds `closeAudio` set
and `stop` clear, no call of `closeAudioDevice()` is made before it and
nothing happens after it, so that exactly one call is made; at return
`closeAudio` is clear, `queueState` Blank and `queueLockState` Unlocked. -/
theorem playerWait_closes_once (X : Externals) (k : Nat) (fd : Int) (w : World)
    (hr : Reach X w) :
    ∃ w0 w1, playerWait X (k + 7) fd w = some (0, w1)
      ∧ w1 = player_task X w0 ∧ w0.pc.closeAudio = true ∧ w0.pc.stop = false
      ∧ w1.trace = w0.trace ++ [Event.closeAudioDevice, Event.wakeup_main_task]
      ∧ closeCount w0 = closeCount w
      ∧ closeCount w1 = closeCount w + 1
      ∧ w1.pc.closeAudio = false
      ∧ w1.pc.queueState = QueueState.PLAYER_QUEUE_BLANK
      ∧ w1.pc.queueLockState = QueueLockState.PLAYER_QUEUE_UNLOCKED := by
  have hc : w.pc.closeAudio = false := by
    have h := reach_allClear X w hr
    unfold allClear at h
    cases hq : w.pc.closeAudio
    · rfl
    · rw [hq] at h
      simp at h
  obtain ⟨w0, w1, h1, h2, h3, h4, h5, h6, h7, h8, h9, _⟩ := playerWait_worked X k fd w
  refine ⟨w0, w1, h1, h2, h3, h4, h5, h9 hc, ?_, h6, h7, h8⟩
  rw [← h9 hc]
  unfold closeCount
  rw [h5]
  simp [List.count_append, List.count_cons]

/-- C19, witness of `playerWait_closes_once`: tearing down after Play of a song
at start-up. -/
theorem playerWait_closes_once_witness :
    Reach sampleExternals afterPlay
      ∧ ∃ w1, playerWait sampleExternals 7 2 afterPlay = some (0, w1)
          ∧ closeCount w1 = closeCount afterPlay + 1
          ∧ w1.pc.closeAudio = false :=
  ⟨Reach.play 7 2 songA 0 (Reach.start (worldOf idleControl) rfl rfl) rfl, by
    obtain ⟨w0, w1, h1, _, _, _, _, _, h7, h8, _⟩ :=
      playerWait_closes_once sampleExternals 0 2 afterPlay
        (Reach.play 7 2 songA 0 (Reach.start (worldOf idleControl) rfl rfl) rfl)
    exact ⟨w1, h1, h7, h8⟩⟩

end MPD
